import Mathlib

/-!
Verification of the session/conversation-identity derivation subsystem of the
multi-channel-serverless repository. The TypeScript sources embedded here are
`src/utils/sessionStore.ts` (stateful SMS/WhatsApp and email session strategies
backed by a DynamoDB table) and `src/utils/sessionId.ts` (the stateless
time-windowed generator).

Modelling conventions:
* JavaScript strings are `List Char` (`Str`). String literals are injected with
  `strL`.
* `Date.now()` timestamps and stored `lastActivity` values are `Int` in the
  stateful store (JS subtraction may go negative) and `Nat` in the stateless
  generator (where only `Date.now()` itself is bucketed).
* Fields that the code defensively checks for absence (`typeof x !== 'number'`,
  `isActive !== false`, `sessionVersion || 0`) are `Option`-typed.
* `uuidv4()` draws are modelled as an explicit `uuid : Str` argument: the
  functions are deterministic in all their declared inputs plus this oracle.
* DynamoDB get/put/update calls are fallible; a `FailSpec` records which
  operation kinds throw. The `try/catch` of each resolution function is the
  `Option`-monadic body plus the wrapper that maps a failure to the fallback id.
* JavaScript `\s` and `trim()` are modelled over the ASCII whitespace characters
  plus NBSP; `toLowerCase()` is modelled on the ASCII range.
-/

set_option autoImplicit false

namespace MultiChannel

/-- JavaScript strings as lists of characters. -/
abbrev Str := List Char

/-- Inject a Lean string literal as a character list. -/
def strL (s : String) : Str := s.data

/-- Character class of the JavaScript regex `\s` (ASCII whitespace plus NBSP),
stated on code points. -/
def isJsSpace (c : Char) : Bool :=
  c.toNat == 32 || c.toNat == 9 || c.toNat == 10 || c.toNat == 13 ||
  c.toNat == 11 || c.toNat == 12 || c.toNat == 0xa0

/-- Characters stripped from phone numbers by `/[\s\-\(\)\+]/g`:
whitespace, hyphen (45), parentheses (40, 41) and plus (43). -/
def isPhoneStripChar (c : Char) : Bool :=
  isJsSpace c || c.toNat == 45 || c.toNat == 40 || c.toNat == 41 || c.toNat == 43

/-- ASCII model of JavaScript `String.prototype.toLowerCase`, per character. -/
def jsToLower (c : Char) : Char :=
  if 65 ≤ c.toNat ∧ c.toNat ≤ 90 then Char.ofNat (c.toNat + 32) else c

/-- JavaScript `trim()`: drop leading and trailing whitespace. -/
def jsTrim (s : Str) : Str :=
  ((s.dropWhile isJsSpace).reverse.dropWhile isJsSpace).reverse

/-- Case-sensitive prefix test (first argument is the pattern). -/
def startsWithCS : Str → Str → Bool
  | [], _ => true
  | _ :: _, [] => false
  | p :: ps, c :: cs => (c == p) && startsWithCS ps cs

/-- JavaScript `hay.includes(needle)`. -/
def containsSub (needle : Str) : Str → Bool
  | [] => needle.isEmpty
  | c :: cs => startsWithCS needle (c :: cs) || containsSub needle cs

/-- Case-insensitive prefix test (first argument is the pattern). -/
def startsWithCI : Str → Str → Bool
  | [], _ => true
  | _ :: _, [] => false
  | p :: ps, c :: cs => (jsToLower c == jsToLower p) && startsWithCI ps cs

/-- One application of `str.replace(/^pat/i, '')`. -/
def stripPrefCI (pat s : Str) : Str :=
  if startsWithCI pat s then s.drop pat.length else s

/-- One application of the case-sensitive `str.replace(/^pat/, '')`. -/
def stripPrefCS (pat s : Str) : Str :=
  if s.take pat.length = pat then s.drop pat.length else s

/-- Worker for `collapseRuns`; the flag records whether the scan is inside a
run of `p`-characters whose replacement has already been emitted. -/
def collapseRunsAux (p : Char → Bool) (rep : Str) : Bool → Str → Str
  | _, [] => []
  | inRun, c :: cs =>
    if p c then
      if inRun then collapseRunsAux p rep true cs
      else rep ++ collapseRunsAux p rep true cs
    else c :: collapseRunsAux p rep false cs

/-- Replace every maximal run of `p`-characters by `rep`
(JavaScript `str.replace(/X+/g, rep)` for a character class `X`). -/
def collapseRuns (p : Char → Bool) (rep : Str) (s : Str) : Str :=
  collapseRunsAux p rep false s

/-- Decimal digit character for a digit value. -/
def digitChar (d : Nat) : Char := Char.ofNat (48 + d)

/-- Big-endian decimal digits, with explicit fuel so that concrete values
reduce by kernel computation (the fuel bounds the number of digits). -/
def natToStringAux : Nat → Nat → Str
  | 0, _ => []
  | fuel + 1, n =>
    if n = 0 then [] else natToStringAux fuel (n / 10) ++ [digitChar (n % 10)]

/-- JavaScript `Number.prototype.toString()` on a nonnegative integer. -/
def natToString (n : Nat) : Str :=
  if n = 0 then ['0'] else natToStringAux n n

-- ===========================================================================
-- sessionStore.ts : SMS/WhatsApp session management
-- ===========================================================================

/-- Default for `SESSION_GAP_SMS_WA` (ms): 24 hours. -/
def SESSION_GAP_SMS_WA : Int := 86400000

/-- Default for `SESSION_GAP_MAIL` (ms): 7 days (defined, never consulted). -/
def SESSION_GAP_MAIL : Int := 604800000

/-- Source `normalizePhoneNumber`: strip a leading `whatsapp:` prefix
(case-insensitive), remove whitespace, dashes, parentheses and plus signs,
lowercase. -/
def normalizePhoneNumber (phoneNumber : Str) : Str :=
  ((stripPrefCI (strL (r"whatsapp:")) phoneNumber).filter
      (fun c => !isPhoneStripChar c)).map jsToLower

/-- Source `generateSmsWhatsAppSessionKey`. -/
def generateSmsWhatsAppSessionKey (channel phoneNumber : Str) : Str :=
  channel ++ ['-'] ++ normalizePhoneNumber phoneNumber

/-- Source `generateSmsWhatsAppSessionId`. -/
def generateSmsWhatsAppSessionId (phoneNumber : Str) (sessionVersion : Nat) : Str :=
  normalizePhoneNumber phoneNumber ++ strL (r"-v") ++ natToString sessionVersion

/-- Stored record shape for SMS/WhatsApp sessions. `sessionVersion`,
`lastActivity` and `isActive` are `Option`-typed because the code checks them
defensively (`typeof ... !== 'number'`, `isActive !== false`). -/
structure SmsWhatsAppSessionRecord where
  sessionKey : Str
  sessionId : Str
  channel : Str
  phoneNumber : Str
  sessionVersion : Option Nat
  createdAt : Int
  lastActivity : Option Int
  isActive : Option Bool

/-- The DynamoDB table restricted to SMS/WhatsApp records, keyed by `threadKey`. -/
def SmsStore := Str → Option SmsWhatsAppSessionRecord

/-- Which store operations throw during a run. -/
structure FailSpec where
  getFails : Bool
  putFails : Bool
  updateFails : Bool

/-- The never-failing store. -/
def noFail : FailSpec := ⟨false, false, false⟩

/-- Point update of the SMS/WhatsApp table. -/
def smsStorePut (st : SmsStore) (k : Str) (rec : SmsWhatsAppSessionRecord) : SmsStore :=
  fun k' => if k' = k then some rec else st k'

/-- `GetCommand` for the SMS/WhatsApp table; `none` models a thrown error. -/
def dbGetSms (f : FailSpec) (st : SmsStore) (k : Str) :
    Option (Option SmsWhatsAppSessionRecord) :=
  if f.getFails then none else some (st k)

/-- `PutCommand` for the SMS/WhatsApp table. -/
def dbPutSms (f : FailSpec) (st : SmsStore) (k : Str)
    (rec : SmsWhatsAppSessionRecord) : Option SmsStore :=
  if f.putFails then none else some (smsStorePut st k rec)

/-- `UpdateCommand` setting `isActive` (only invoked on existing keys). -/
def dbSetSmsInactive (f : FailSpec) (st : SmsStore) (k : Str) : Option SmsStore :=
  if f.updateFails then none
  else some (fun k' =>
    if k' = k then (st k).map (fun r => { r with isActive := some false }) else st k')

/-- `UpdateCommand` setting `lastActivity` (only invoked on existing keys). -/
def dbTouchSms (f : FailSpec) (st : SmsStore) (k : Str) (now : Int) : Option SmsStore :=
  if f.updateFails then none
  else some (fun k' =>
    if k' = k then (st k).map (fun r => { r with lastActivity := some now }) else st k')

/-- A freshly created SMS/WhatsApp record, as built at each creation site. -/
def mkSmsRecord (channel phoneNumber sessionKey : Str) (version : Nat)
    (now : Int) : SmsWhatsAppSessionRecord :=
  { sessionKey := sessionKey
    sessionId := generateSmsWhatsAppSessionId phoneNumber version
    channel := channel
    phoneNumber := normalizePhoneNumber phoneNumber
    sessionVersion := some version
    createdAt := now
    lastActivity := some now
    isActive := some true }

/-- Whether the message requests a new session:
`messageText && messageText.trim().toLowerCase().includes('new session')`. -/
def wantsNewSession (messageText : Option Str) : Bool :=
  match messageText with
  | none => false
  | some m =>
    if m = [] then false
    else containsSub (strL (r"new session")) ((jsTrim m).map jsToLower)

/-- The `try` block of `getOrCreateSmsWhatsAppSession` (source lines 98-248);
`none` means a store operation threw and control reaches the `catch`. -/
def smsBody (gap : Int) (f : FailSpec) (channel phoneNumber : Str)
    (messageText : Option Str) (now : Int) (st : SmsStore) :
    Option (Str × SmsStore) := do
  let sessionKey := generateSmsWhatsAppSessionKey channel phoneNumber
  let item ← dbGetSms f st sessionKey
  match item with
  | some existingSession =>
    match existingSession.sessionVersion, existingSession.lastActivity with
    | some ver, some lastAct =>
      if wantsNewSession messageText then
        -- user-requested new session: mark inactive, put version + 1
        let st1 ← dbSetSmsInactive f st sessionKey
        let rec1 := mkSmsRecord channel phoneNumber sessionKey (ver + 1) now
        let st2 ← dbPutSms f st1 sessionKey rec1
        return (rec1.sessionId, st2)
      else if existingSession.isActive ≠ some false then
        if now - lastAct ≤ gap then
          -- within the gap: touch lastActivity, reuse the stored id
          let st1 ← dbTouchSms f st sessionKey now
          return (existingSession.sessionId, st1)
        else
          -- gap exceeded: mark inactive, put version + 1
          let st1 ← dbSetSmsInactive f st sessionKey
          let rec1 := mkSmsRecord channel phoneNumber sessionKey (ver + 1) now
          let st2 ← dbPutSms f st1 sessionKey rec1
          return (rec1.sessionId, st2)
      else
        -- previous session ended: put version + 1 (no inactive-marking update)
        let rec1 := mkSmsRecord channel phoneNumber sessionKey (ver + 1) now
        let st1 ← dbPutSms f st sessionKey rec1
        return (rec1.sessionId, st1)
    | _, _ =>
      -- missing required fields: fall through to the create-first block (v1)
      let rec1 := mkSmsRecord channel phoneNumber sessionKey 1 now
      let st1 ← dbPutSms f st sessionKey rec1
      return (rec1.sessionId, st1)
  | none =>
    let rec1 := mkSmsRecord channel phoneNumber sessionKey 1 now
    let st1 ← dbPutSms f st sessionKey rec1
    return (rec1.sessionId, st1)

/-- Source `getOrCreateSmsWhatsAppSession`: validation throw, body, and the
`catch` that degrades to a non-persisted `{normalizedPhone}-v1` fallback.
The store returned on the fallback path is not part of any claim; the model
returns the pre-call store there. -/
def getOrCreateSmsWhatsAppSession (gap : Int) (f : FailSpec)
    (channel phoneNumber : Str) (messageText : Option Str) (now : Int)
    (st : SmsStore) : Except Str (Str × SmsStore) :=
  if jsTrim phoneNumber = [] then
    .error (strL (r"Phone number is required for SMS/WhatsApp session"))
  else
    match smsBody gap f channel phoneNumber messageText now st with
    | some res => .ok res
    | none => .ok (normalizePhoneNumber phoneNumber ++ strL (r"-v1"), st)

-- ===========================================================================
-- sessionStore.ts : email session management
-- ===========================================================================

/-- The `ThreadIdentifier` interface. `subject` is a required string field;
the remaining fields are optional. -/
structure ThreadIdentifier where
  threadId : Option Str
  subject : Str
  inReplyTo : Option Str
  references : Option Str
  senderEmail : Option Str

/-- Stored record shape for email sessions. `sessionVersion` is `Option`-typed
because the code reads it as `sessionVersion || 0`. -/
structure EmailSessionRecord where
  sessionKey : Str
  sessionId : Str
  senderEmail : Str
  subject : Str
  sessionVersion : Option Nat
  createdAt : Int
  lastActivity : Int
  threadId : Option Str
  inReplyTo : Option Str
  references : Option Str

/-- The DynamoDB table restricted to email records, keyed by `threadKey`. -/
def EmailStore := Str → Option EmailSessionRecord

/-- One application of the regex `^(re|fwd?):\s*` deletion (alternation tries
`re`, then `fwd`, then `fw`, each case-insensitively, then eats whitespace). -/
def stripReFwd (s : Str) : Str :=
  if startsWithCI (strL (r"re:")) s then (s.drop 3).dropWhile isJsSpace
  else if startsWithCI (strL (r"fwd:")) s then (s.drop 4).dropWhile isJsSpace
  else if startsWithCI (strL (r"fw:")) s then (s.drop 3).dropWhile isJsSpace
  else s

/-- The inline subject normalization used for the session key and the equality
check: `trim`, strip one reply/forward marker, collapse whitespace runs to a
single space, lowercase. -/
def normalizeSubjectKeyPart (subject : Str) : Str :=
  (collapseRuns isJsSpace [' '] (stripReFwd (jsTrim subject))).map jsToLower

/-- JavaScript `toLowerCase()` on a whole string. -/
def jsLowerStr (s : Str) : Str := s.map jsToLower

/-- Character class `[a-z0-9\s-]` kept by the URL-safe subject step. -/
def isSubjKeepChar (c : Char) : Bool :=
  decide (97 ≤ c.toNat ∧ c.toNat ≤ 122) || decide (48 ≤ c.toNat ∧ c.toNat ≤ 57) ||
  isJsSpace c || c.toNat == 45

/-- The regex `/^-|-$/g`: remove one leading and one trailing hyphen. -/
def stripEdgeHyphens (s : Str) : Str :=
  let s1 := if s.head? = some '-' then s.drop 1 else s
  if s1.getLast? = some '-' then s1.dropLast else s1

/-- Source `normalizeSubjectForSessionId`: key-style normalization followed by
the URL-safe pass (non-`[a-z0-9\s-]` to hyphen, whitespace runs to hyphen,
hyphen runs collapsed, edge hyphens stripped, truncation to 50 chars). -/
def normalizeSubjectForSessionId (subject : Str) : Str :=
  if subject = [] then []
  else
    let normalized := normalizeSubjectKeyPart subject
    (stripEdgeHyphens
      (collapseRuns (fun c => c == '-') ['-']
        (collapseRuns isJsSpace ['-']
          (normalized.map (fun c => if isSubjKeepChar c then c else '-'))))).take 50

/-- Source `generateEmailSessionKey`. The `uuid` argument is the `uuidv4()`
draw used only by the no-identifier fallback key. -/
def generateEmailSessionKey (uuid : Str) (identifier : ThreadIdentifier) : Str :=
  let normalizedSubject := normalizeSubjectKeyPart identifier.subject
  let parts : List Str :=
    (if normalizedSubject ≠ [] then [strL (r"subject:") ++ normalizedSubject] else []) ++
    (match identifier.senderEmail with
     | some e => if e ≠ [] then [strL (r"from:") ++ jsLowerStr e] else []
     | none => [])
  if parts = [] then strL (r"email-fallback-") ++ uuid
  else strL (r"email-") ++ List.intercalate ['|'] parts

/-- `senderEmail.toLowerCase().replace(/[@.]/g, '-')`. -/
def emailFromForId (senderEmail : Str) : Str :=
  (jsLowerStr senderEmail).map (fun c => if c == '@' || c == '.' then '-' else c)

/-- The session-id shape built at the email creation sites:
`{normalizedFrom}-{normalizedSubjectForId}-v{n}`, subject segment omitted when
it normalizes to the empty string. -/
def mkEmailSessionId (identifier : ThreadIdentifier) (version : Nat) : Str :=
  let normalizedSubjectForId := normalizeSubjectForSessionId identifier.subject
  let normalizedFrom := emailFromForId (identifier.senderEmail.getD [])
  if normalizedSubjectForId ≠ [] then
    normalizedFrom ++ ['-'] ++ normalizedSubjectForId ++ strL (r"-v") ++ natToString version
  else normalizedFrom ++ strL (r"-v") ++ natToString version

/-- A freshly created email record, as built at both creation sites. -/
def mkEmailRecord (sessionKey : Str) (identifier : ThreadIdentifier)
    (version : Nat) (now : Int) : EmailSessionRecord :=
  { sessionKey := sessionKey
    sessionId := mkEmailSessionId identifier version
    senderEmail := identifier.senderEmail.getD []
    subject := identifier.subject
    sessionVersion := some version
    createdAt := now
    lastActivity := now
    threadId := identifier.threadId
    inReplyTo := identifier.inReplyTo
    references := identifier.references }

/-- Point update of the email table. -/
def emailStorePut (st : EmailStore) (k : Str) (rec : EmailSessionRecord) : EmailStore :=
  fun k' => if k' = k then some rec else st k'

/-- `GetCommand` for the email table. -/
def dbGetEmail (f : FailSpec) (st : EmailStore) (k : Str) :
    Option (Option EmailSessionRecord) :=
  if f.getFails then none else some (st k)

/-- `PutCommand` for the email table. -/
def dbPutEmail (f : FailSpec) (st : EmailStore) (k : Str)
    (rec : EmailSessionRecord) : Option EmailStore :=
  if f.putFails then none else some (emailStorePut st k rec)

/-- `UpdateCommand` bumping `lastActivity` on the email table. -/
def dbTouchEmail (f : FailSpec) (st : EmailStore) (k : Str) (now : Int) :
    Option EmailStore :=
  if f.updateFails then none
  else some (fun k' =>
    if k' = k then (st k).map (fun r => { r with lastActivity := now }) else st k')

/-- The `try` block of `getOrCreateEmailSession` (source lines 357-454). -/
def emailBody (f : FailSpec) (identifier : ThreadIdentifier) (now : Int)
    (st : EmailStore) (sessionKey : Str) : Option (Str × EmailStore) := do
  let item ← dbGetEmail f st sessionKey
  match item with
  | some existingSession =>
    let normalizedSubject := normalizeSubjectKeyPart identifier.subject
    let normalizedFrom := jsLowerStr (identifier.senderEmail.getD [])
    let existingSubject := normalizeSubjectKeyPart existingSession.subject
    let existingFrom := jsLowerStr existingSession.senderEmail
    if normalizedSubject = existingSubject ∧ normalizedFrom = existingFrom then
      -- subject and from match: touch lastActivity, reuse the stored id
      let st1 ← dbTouchEmail f st sessionKey now
      return (existingSession.sessionId, st1)
    else
      -- subject or from changed under the same key: version bump
      let newVersion := existingSession.sessionVersion.getD 0 + 1
      let rec1 := mkEmailRecord sessionKey identifier newVersion now
      let st1 ← dbPutEmail f st sessionKey rec1
      return (rec1.sessionId, st1)
  | none =>
    let rec1 := mkEmailRecord sessionKey identifier 1 now
    let st1 ← dbPutEmail f st sessionKey rec1
    return (rec1.sessionId, st1)

/-- The fallback id built in the `catch` of `getOrCreateEmailSession`: it
defaults an absent or empty sender to `unknown`. -/
def emailFallbackId (identifier : ThreadIdentifier) : Str :=
  let normalizedSubjectForId := normalizeSubjectForSessionId identifier.subject
  let sender := match identifier.senderEmail with
    | some e => if e = [] then strL (r"unknown") else e
    | none => strL (r"unknown")
  let normalizedFrom := emailFromForId sender
  if normalizedSubjectForId ≠ [] then
    normalizedFrom ++ ['-'] ++ normalizedSubjectForId ++ strL (r"-v1")
  else normalizedFrom ++ strL (r"-v1")

/-- Source `getOrCreateEmailSession`: never throws; on a store failure the
`catch` degrades to the non-persisted fallback id. -/
def getOrCreateEmailSession (uuid : Str) (f : FailSpec)
    (identifier : ThreadIdentifier) (now : Int) (st : EmailStore) :
    Str × EmailStore :=
  let sessionKey := generateEmailSessionKey uuid identifier
  match emailBody f identifier now st sessionKey with
  | some res => res
  | none => (emailFallbackId identifier, st)

/-- Deprecated source `getOrCreateSessionId`: delegates to
`getOrCreateEmailSession`. -/
def getOrCreateSessionId (uuid : Str) (f : FailSpec)
    (identifier : ThreadIdentifier) (now : Int) (st : EmailStore) :
    Str × EmailStore :=
  getOrCreateEmailSession uuid f identifier now st

/-- Deprecated source `generateThreadKey`: delegates to
`generateEmailSessionKey`. -/
def generateThreadKey (uuid : Str) (identifier : ThreadIdentifier) : Str :=
  generateEmailSessionKey uuid identifier

-- ===========================================================================
-- sessionId.ts : stateless time-windowed generator
-- ===========================================================================

/-- Five minutes in milliseconds. -/
def fiveMinutesInMs : Nat := 5 * 60 * 1000

/-- `Math.floor(now / fiveMinutesInMs) * fiveMinutesInMs`. -/
def bucketStart (now : Nat) : Nat := now / fiveMinutesInMs * fiveMinutesInMs

/-- Source `generateSmsSessionId` (note: no `whatsapp:` stripping and no
lowercasing on this path). -/
def generateSmsSessionId (now : Nat) (phoneNumber : Str) : Str :=
  let normalized := phoneNumber.filter (fun c => !isPhoneStripChar c)
  strL (r"sms-") ++ normalized ++ ['-'] ++ natToString (bucketStart now)

/-- The phone branch of `generateWhatsAppSessionId` (case-sensitive
`whatsapp:` strip, then the character strip). -/
def whatsappPhoneBranch (now : Nat) (phoneNumber : Str) : Str :=
  let normalized := (stripPrefCS (strL (r"whatsapp:")) phoneNumber).filter
      (fun c => !isPhoneStripChar c)
  strL (r"whatsapp-") ++ normalized ++ ['-'] ++ natToString (bucketStart now)

/-- Source `generateWhatsAppSessionId`: a truthy `waId` is used verbatim. -/
def generateWhatsAppSessionId (now : Nat) (phoneNumber : Str)
    (waId : Option Str) : Str :=
  match waId with
  | some w =>
    if w = [] then whatsappPhoneBranch now phoneNumber
    else strL (r"whatsapp-") ++ w ++ ['-'] ++ natToString (bucketStart now)
  | none => whatsappPhoneBranch now phoneNumber

/-- Source `generateEmailSessionId`. The `uuid` argument is the fresh
`uuidv4()` draw consumed when no truthy `threadId` is given. -/
def generateEmailSessionId (uuid : Str) (threadId senderEmail : Option Str) : Str :=
  let noThread :=
    match senderEmail with
    | some e =>
      if e = [] then strL (r"email-") ++ uuid
      else strL (r"email-") ++ emailFromForId e ++ ['-'] ++ uuid.take 8
    | none => strL (r"email-") ++ uuid
  match threadId with
  | some t => if t = [] then noThread else strL (r"email-") ++ t
  | none => noThread

/-- Channels understood by `extractSessionId`. -/
inductive Channel
  | sms
  | whatsapp
  | email
deriving DecidableEq

/-- The `data` argument of `extractSessionId`. -/
structure ExtractData where
  phoneNumber : Option Str
  waId : Option Str
  threadId : Option Str
  senderEmail : Option Str

/-- JavaScript truthiness of an optional string. -/
def truthy (o : Option Str) : Bool :=
  match o with
  | some s => !s.isEmpty
  | none => false

/-- Source `extractSessionId`: throws when the channel's required identifier
is missing. -/
def extractSessionId (uuid : Str) (now : Nat) (channel : Channel)
    (data : ExtractData) : Except Str Str :=
  match channel with
  | .sms =>
    if truthy data.phoneNumber then
      .ok (generateSmsSessionId now (data.phoneNumber.getD []))
    else .error (strL (r"Phone number is required for SMS session ID"))
  | .whatsapp =>
    if truthy data.phoneNumber || truthy data.waId then
      .ok (generateWhatsAppSessionId now (data.phoneNumber.getD []) data.waId)
    else .error (strL (r"Phone number or WaId is required for WhatsApp session ID"))
  | .email => .ok (generateEmailSessionId uuid data.threadId data.senderEmail)

-- ===========================================================================
-- The query-API session-id grammar
-- ===========================================================================

/-- One character of the grammar `[0-9a-zA-Z._:-]`: digits, letters,
dot (46), underscore (95), colon (58), hyphen (45). -/
def isAllowedIdChar (c : Char) : Bool :=
  decide (48 ≤ c.toNat ∧ c.toNat ≤ 57) || decide (65 ≤ c.toNat ∧ c.toNat ≤ 90) ||
  decide (97 ≤ c.toNat ∧ c.toNat ≤ 122) ||
  c.toNat == 46 || c.toNat == 95 || c.toNat == 58 || c.toNat == 45

/-- The full grammar `^[0-9a-zA-Z._:-]+$`. -/
def matchesGrammar (s : Str) : Bool := !s.isEmpty && s.all isAllowedIdChar

-- ===========================================================================
-- General lemmas: decimal digits, lowercasing, character classes
-- ===========================================================================

/-- Decimal value of a digit string (left inverse of `natToString`). -/
def digitsVal (l : Str) : Nat := l.foldl (fun a c => 10 * a + (c.toNat - 48)) 0

theorem toNat_ofNat_of_lt {n : Nat} (h : n < 55296) : (Char.ofNat n).toNat = n := by
  have hv : n.isValidChar := Or.inl h
  simp [Char.ofNat, hv, Char.ofNatAux, Char.toNat, UInt32.toNat]

theorem toNat_digitChar {d : Nat} (h : d < 10) : (digitChar d).toNat = 48 + d := by
  exact toNat_ofNat_of_lt (by omega)

theorem digitsVal_append_singleton (l : Str) (c : Char) :
    digitsVal (l ++ [c]) = 10 * digitsVal l + (c.toNat - 48) := by
  simp [digitsVal, List.foldl_append]

theorem digitsVal_natToStringAux (fuel : Nat) :
    ∀ n, n ≤ fuel → digitsVal (natToStringAux fuel n) = n := by
  induction fuel with
  | zero => intro n h; interval_cases n; simp [natToStringAux, digitsVal]
  | succ fuel ih =>
    intro n h
    by_cases h0 : n = 0
    · simp [natToStringAux, h0, digitsVal]
    · have hdiv : n / 10 ≤ fuel := by omega
      rw [natToStringAux, if_neg h0, digitsVal_append_singleton, ih _ hdiv,
        toNat_digitChar (Nat.mod_lt n (by omega))]
      omega

theorem digitsVal_natToString (n : Nat) : digitsVal (natToString n) = n := by
  by_cases h0 : n = 0
  · simp [natToString, h0, digitsVal]
  · rw [natToString, if_neg h0]; exact digitsVal_natToStringAux n n le_rfl

theorem natToString_injective {m n : Nat} (h : natToString m = natToString n) :
    m = n := by
  have := congrArg digitsVal h
  rwa [digitsVal_natToString, digitsVal_natToString] at this

theorem natToString_ne_nil (n : Nat) : natToString n ≠ [] := by
  by_cases h0 : n = 0
  · simp [natToString, h0]
  · rw [natToString, if_neg h0]
    cases fuelEq : n with
    | zero => exact absurd fuelEq h0
    | succ fuel =>
      rw [natToStringAux, if_neg (fuelEq ▸ h0)]
      simp

theorem mem_natToStringAux_digit (fuel : Nat) :
    ∀ n c, c ∈ natToStringAux fuel n → 48 ≤ c.toNat ∧ c.toNat ≤ 57 := by
  induction fuel with
  | zero => intro n c h; simp [natToStringAux] at h
  | succ fuel ih =>
    intro n c h
    rw [natToStringAux] at h
    by_cases h0 : n = 0
    · simp [h0] at h
    · rw [if_neg h0] at h
      rcases List.mem_append.mp h with h1 | h1
      · exact ih _ _ h1
      · have : c = digitChar (n % 10) := List.mem_singleton.mp h1
        have hm : n % 10 < 10 := Nat.mod_lt n (by omega)
        rw [this, toNat_digitChar hm]; omega

theorem mem_natToString_digit {n : Nat} {c : Char} (h : c ∈ natToString n) :
    48 ≤ c.toNat ∧ c.toNat ≤ 57 := by
  by_cases h0 : n = 0
  · simp [natToString, h0] at h; subst h; simp
  · rw [natToString, if_neg h0] at h
    exact mem_natToStringAux_digit n n c h

theorem jsToLower_idem (c : Char) : jsToLower (jsToLower c) = jsToLower c := by
  unfold jsToLower
  by_cases h : 65 ≤ c.toNat ∧ c.toNat ≤ 90
  · rw [if_pos h, toNat_ofNat_of_lt (by omega) ]
    rw [if_neg (by omega)]
  · rw [if_neg h, if_neg h]

theorem jsLowerStr_idem (s : Str) : jsLowerStr (jsLowerStr s) = jsLowerStr s := by
  simp [jsLowerStr, List.map_map]
  exact fun c _ => jsToLower_idem c

/-- The phone number of the C5 scenario. -/
def c5Phone : Str := strL (r"+1 (234) 567-8900")

/-- First resolution of the C5 scenario, at t = 0 on the empty store. -/
def c5Run1 : Str × SmsStore :=
  match getOrCreateSmsWhatsAppSession SESSION_GAP_SMS_WA noFail (strL (r"sms"))
      c5Phone none 0 (fun _ => none) with
  | .ok res => res
  | .error _ => ([], fun _ => none)

/-- Second resolution of the C5 scenario, 5 minutes later. -/
def c5Run2 : Str × SmsStore :=
  match getOrCreateSmsWhatsAppSession SESSION_GAP_SMS_WA noFail (strL (r"sms"))
      c5Phone none 300000 c5Run1.snd with
  | .ok res => res
  | .error _ => ([], fun _ => none)

/-- A sender email whose local part contains `+`. -/
def c1BadIdentifier : ThreadIdentifier :=
  ⟨none, strL (r"hi"), none, none, some (strL (r"jane+foo@x.com"))⟩

/-- Forty-nine `a`s then a space then `b`: its normalized-for-id form is cut
at 50 characters, leaving a trailing hyphen. -/
def c3LongSubject : Str :=
  strL (r"aaaaaaaaaaaaaaaaaaaaaaaaaaaaaaaaaaaaaaaaaaaaaaaaa b")

/-- A stored record with `sessionVersion` present (5) but `lastActivity`
missing: the defensive malformed-record check fires on it. -/
def c4Record : SmsWhatsAppSessionRecord :=
  { sessionKey := strL (r"sms-12345")
    sessionId := strL (r"12345-v5")
    channel := strL (r"sms")
    phoneNumber := strL (r"12345")
    sessionVersion := some 5
    createdAt := 0
    lastActivity := none
    isActive := some false }

/-- A store holding only the malformed record. -/
def c4Store : SmsStore :=
  fun k => if k = strL (r"sms-12345") then some c4Record else none

/-- The first email of the C6 scenario. -/
def c6First : ThreadIdentifier :=
  ⟨none, strL (r"Invoice #42"), none, none, some (strL (r"jane@x.com"))⟩

/-- The reply of the C6 scenario. -/
def c6Reply : ThreadIdentifier :=
  ⟨none, strL (r"Re: Invoice #42"), none, none, some (strL (r"jane@x.com"))⟩

/-- Resolution of the first C6 email on the empty store. -/
def c6Run1 : Str × EmailStore :=
  getOrCreateEmailSession (strL (r"u1")) noFail c6First 0 (fun _ => none)

-- ===========================================================================
-- Normalization idempotence machinery
-- ===========================================================================

/-- Character class `[a-z0-9-]`: every character a fully normalized
subject-for-id consists of. -/
def isIdBodyChar (c : Char) : Bool :=
  decide (97 ≤ c.toNat ∧ c.toNat ≤ 122) || decide (48 ≤ c.toNat ∧ c.toNat ≤ 57) ||
  c.toNat == 45

theorem toNat_jsToLower_of_upper {c : Char} (h : 65 ≤ c.toNat ∧ c.toNat ≤ 90) :
    (jsToLower c).toNat = c.toNat + 32 := by
  rw [jsToLower, if_pos h]
  exact toNat_ofNat_of_lt (by omega)

theorem jsToLower_of_not_upper {c : Char} (h : ¬(65 ≤ c.toNat ∧ c.toNat ≤ 90)) :
    jsToLower c = c := by
  rw [jsToLower, if_neg h]

theorem jsToLower_of_idBody {c : Char} (h : isIdBodyChar c = true) :
    jsToLower c = c := by
  refine jsToLower_of_not_upper ?_
  simp only [isIdBodyChar, Bool.or_eq_true, decide_eq_true_eq, beq_iff_eq] at h
  omega

theorem idBody_not_ws {c : Char} (h : isIdBodyChar c = true) :
    isJsSpace c = false := by
  simp only [isIdBodyChar, Bool.or_eq_true, decide_eq_true_eq, beq_iff_eq] at h
  simp only [isJsSpace, Bool.or_eq_false_iff, beq_eq_false_iff_ne, ne_eq]
  omega

theorem idBody_keep {c : Char} (h : isIdBodyChar c = true) :
    isSubjKeepChar c = true := by
  simp only [isIdBodyChar, Bool.or_eq_true, decide_eq_true_eq, beq_iff_eq] at h
  simp only [isSubjKeepChar, isJsSpace, Bool.or_eq_true, decide_eq_true_eq,
    beq_iff_eq]
  omega

theorem keep_not_ws_idBody {c : Char} (h1 : isSubjKeepChar c = true)
    (h2 : isJsSpace c = false) : isIdBodyChar c = true := by
  simp only [isSubjKeepChar, isJsSpace, Bool.or_eq_true, decide_eq_true_eq,
    beq_iff_eq] at h1
  simp only [isJsSpace, Bool.or_eq_false_iff, beq_eq_false_iff_ne, ne_eq] at h2
  simp only [isIdBodyChar, Bool.or_eq_true, decide_eq_true_eq, beq_iff_eq]
  omega

theorem isPhoneStripChar_jsToLower (c : Char) :
    isPhoneStripChar (jsToLower c) = isPhoneStripChar c := by
  by_cases h : 65 ≤ c.toNat ∧ c.toNat ≤ 90
  · have h32 := toNat_jsToLower_of_upper h
    have l : isPhoneStripChar (jsToLower c) = false := by
      simp only [isPhoneStripChar, isJsSpace, Bool.or_eq_false_iff,
        beq_eq_false_iff_ne, ne_eq, h32]
      omega
    have r : isPhoneStripChar c = false := by
      simp only [isPhoneStripChar, isJsSpace, Bool.or_eq_false_iff,
        beq_eq_false_iff_ne, ne_eq]
      omega
    rw [l, r]
  · rw [jsToLower_of_not_upper h]

theorem map_id_on {f : Char → Char} {l : Str} (h : ∀ c ∈ l, f c = c) :
    l.map f = l := by
  induction l with
  | nil => rfl
  | cons c cs ih =>
    rw [List.map_cons, h c (by simp), ih (fun x hx => h x (by simp [hx]))]

theorem dropWhile_eq_self_of {p : Char → Bool} {l : Str}
    (h : ∀ c ∈ l, p c = false) : l.dropWhile p = l := by
  cases l with
  | nil => rfl
  | cons c cs => exact List.dropWhile_cons_of_neg (by simp [h c (by simp)])

theorem jsTrim_eq_self {l : Str} (h : ∀ c ∈ l, isJsSpace c = false) :
    jsTrim l = l := by
  unfold jsTrim
  rw [dropWhile_eq_self_of h,
    dropWhile_eq_self_of (fun c hc => h c (List.mem_reverse.mp hc)),
    List.reverse_reverse]

theorem mem_collapseRunsAux {p : Char → Bool} {rep : Str} :
    ∀ (l : Str) (b : Bool) (c : Char), c ∈ collapseRunsAux p rep b l →
      c ∈ rep ∨ (c ∈ l ∧ p c = false) := by
  intro l
  induction l with
  | nil => intro b c h; simp [collapseRunsAux] at h
  | cons a t ih =>
    intro b c h
    unfold collapseRunsAux at h
    by_cases hpa : p a = true
    · rw [if_pos hpa] at h
      have h' : c ∈ rep ∨ c ∈ collapseRunsAux p rep true t := by
        cases b with
        | true => exact Or.inr h
        | false => exact (List.mem_append.mp h).imp id id
      rcases h' with h' | h'
      · exact Or.inl h'
      · rcases ih true c h' with h'' | ⟨h1, h2⟩
        · exact Or.inl h''
        · exact Or.inr ⟨by simp [h1], h2⟩
    · rw [if_neg hpa] at h
      rcases List.mem_cons.mp h with h' | h'
      · subst h'
        exact Or.inr ⟨by simp, by simpa using hpa⟩
      · rcases ih false c h' with h'' | ⟨h1, h2⟩
        · exact Or.inl h''
        · exact Or.inr ⟨by simp [h1], h2⟩

theorem collapseRunsAux_eq_self_noP {p : Char → Bool} {rep : Str} :
    ∀ (l : Str), (∀ c ∈ l, p c = false) → ∀ b,
      collapseRunsAux p rep b l = l := by
  intro l
  induction l with
  | nil => intro _ b; rfl
  | cons a t ih =>
    intro h b
    unfold collapseRunsAux
    rw [if_neg (by simp [h a (by simp)])]
    rw [ih (fun c hc => h c (by simp [hc])) false]

/-- The no-two-adjacent-`p`-characters relation used below. -/
def NoRun (p : Char → Bool) (a b : Char) : Prop := ¬(p a = true ∧ p b = true)

theorem collapseRunsAux_eq_self_isolated {p : Char → Bool} {r : Char} :
    ∀ (l : Str), (∀ c ∈ l, p c = true → c = r) →
      l.Chain' (NoRun p) →
      collapseRunsAux p [r] false l = l ∧
      (∀ hd, l.head? = some hd → p hd = false →
        collapseRunsAux p [r] true l = l) := by
  intro l
  induction l with
  | nil => exact fun _ _ => ⟨rfl, fun hd h => by simp at h⟩
  | cons a t ih =>
    intro helem hchain
    have ht := ih (fun c hc hpc => helem c (by simp [hc]) hpc) hchain.tail
    constructor
    · unfold collapseRunsAux
      by_cases hpa : p a = true
      · rw [if_pos hpa]
        have ha : a = r := helem a (by simp) hpa
        have htt : collapseRunsAux p [r] true t = t := by
          cases t with
          | nil => rfl
          | cons b t2 =>
            have hrel : NoRun p a b := (List.chain'_cons.mp hchain).1
            have hb : p b = false := by
              by_contra hb'
              simp only [Bool.not_eq_false] at hb'
              exact hrel ⟨hpa, hb'⟩
            exact ht.2 b rfl hb
        rw [htt, ha]
        rfl
      · rw [if_neg hpa, ht.1]
    · intro hd hhd hphd
      have ha : hd = a := by simpa using hhd.symm
      subst ha
      unfold collapseRunsAux
      rw [if_neg (by simp [hphd]), ht.1]

theorem collapseRunsAux_chain {p : Char → Bool} {r : Char} :
    ∀ (l : Str),
      (∀ b, (collapseRunsAux p [r] b l).Chain' (NoRun p)) ∧
      (∀ hd, (collapseRunsAux p [r] true l).head? = some hd → p hd = false) := by
  intro l
  induction l with
  | nil =>
    exact ⟨fun _ => List.chain'_nil, fun hd h => by simp [collapseRunsAux] at h⟩
  | cons a t ih =>
    constructor
    · intro b
      unfold collapseRunsAux
      by_cases hpa : p a = true
      · rw [if_pos hpa]
        cases b with
        | true => exact ih.1 true
        | false =>
          rw [List.singleton_append]
          refine List.chain'_cons'.mpr ⟨?_, ih.1 true⟩
          intro y hy
          exact fun hcon => by simp [ih.2 y hy] at hcon
      · rw [if_neg hpa]
        refine List.chain'_cons'.mpr ⟨?_, ih.1 false⟩
        intro y hy
        exact fun hcon => by simp [hcon.1] at hpa
    · intro hd hh
      unfold collapseRunsAux at hh
      by_cases hpa : p a = true
      · rw [if_pos hpa] at hh
        exact ih.2 hd hh
      · rw [if_neg hpa] at hh
        have : hd = a := by simpa using hh.symm
        subst this
        simpa using hpa

theorem startsWithCI_colon_third {x y a b c : Char} {t : Str}
    (hc : isIdBodyChar c = true) :
    startsWithCI [x, y, ':'] (a :: b :: c :: t) = false := by
  have h1 : jsToLower c = c := jsToLower_of_idBody hc
  have h3 : jsToLower ':' = ':' := rfl
  have h2 : (jsToLower c == jsToLower ':') = false := by
    rw [h1, h3]
    refine beq_eq_false_iff_ne.mpr ?_
    intro he
    subst he
    exact absurd hc (by decide)
  simp [startsWithCI, h2]

theorem startsWithCI_colon_fourth {x y z a b c d : Char} {t : Str}
    (hd : isIdBodyChar d = true) :
    startsWithCI [x, y, z, ':'] (a :: b :: c :: d :: t) = false := by
  have h1 : jsToLower d = d := jsToLower_of_idBody hd
  have h3 : jsToLower ':' = ':' := rfl
  have h2 : (jsToLower d == jsToLower ':') = false := by
    rw [h1, h3]
    refine beq_eq_false_iff_ne.mpr ?_
    intro he
    subst he
    exact absurd hd (by decide)
  simp [startsWithCI, h2]

theorem stripReFwd_eq_self {l : Str} (h : ∀ c ∈ l, isIdBodyChar c = true) :
    stripReFwd l = l := by
  have hre : strL (r"re:") = ['r', 'e', ':'] := rfl
  have hfwd : strL (r"fwd:") = ['f', 'w', 'd', ':'] := rfl
  have hfw : strL (r"fw:") = ['f', 'w', ':'] := rfl
  unfold stripReFwd
  rw [hre, hfwd, hfw]
  rcases l with _ | ⟨a, _ | ⟨b, _ | ⟨c, t⟩⟩⟩
  · rfl
  · simp [startsWithCI]
  · simp [startsWithCI]
  · rw [if_neg (by simp [startsWithCI_colon_third (h c (by simp))])]
    rcases t with _ | ⟨d, t2⟩
    · rw [if_neg (by simp [startsWithCI]),
        if_neg (by simp [startsWithCI_colon_third (h c (by simp))])]
    · rw [if_neg (by simp [startsWithCI_colon_fourth (h d (by simp))]),
        if_neg (by simp [startsWithCI_colon_third (h c (by simp))])]

theorem stripEdgeHyphens_subset {l : Str} :
    stripEdgeHyphens l ⊆ l := by
  unfold stripEdgeHyphens
  intro c hc
  simp only at hc
  split at hc
  · split at hc
    · exact List.drop_subset 1 l (List.dropLast_subset _ hc)
    · exact List.drop_subset 1 l hc
  · split at hc
    · exact List.dropLast_subset _ hc
    · exact hc

theorem stripEdgeHyphens_chain {l : Str} {p : Char → Bool}
    (h : l.Chain' (NoRun p)) : (stripEdgeHyphens l).Chain' (NoRun p) := by
  unfold stripEdgeHyphens
  have h1 : (l.drop 1).Chain' (NoRun p) := h.drop 1
  simp only
  split
  · split
    · exact h1.init
    · exact h1
  · split
    · exact h.init
    · exact h

theorem stripEdgeHyphens_head {l : Str}
    (hchain : l.Chain' (NoRun (fun c => c == '-'))) :
    (stripEdgeHyphens l).head? ≠ some '-' := by
  unfold stripEdgeHyphens
  have key : ∀ m : Str, m.head? ≠ some '-' →
      (if m.getLast? = some '-' then m.dropLast else m).head? ≠ some '-' := by
    intro m hm
    split
    · rcases m with _ | ⟨x, _ | ⟨y, t⟩⟩
      · simp
      · simp
      · simpa [List.dropLast] using hm
    · exact hm
  simp only
  split
  · rename_i hhead
    refine key _ ?_
    rcases l with _ | ⟨x, _ | ⟨y, t⟩⟩
    · simp
    · simp
    · simp only [List.head?_cons, Option.some.injEq] at hhead
      subst hhead
      have hrel : NoRun (fun c => c == '-') '-' y :=
        (List.chain'_cons.mp hchain).1
      simp only [List.drop_succ_cons, List.drop_zero, List.head?_cons, ne_eq,
        Option.some.injEq]
      intro hy
      exact hrel ⟨by simp, by simp [hy]⟩
  · rename_i hhead
    exact key _ hhead

theorem head_take_ne {l : Str} (h : l.head? ≠ some '-') :
    (l.take 50).head? ≠ some '-' := by
  cases l with
  | nil => simp
  | cons x t => simpa using h

/-- Invariants of a normalized subject-for-id: characters in `[a-z0-9-]`, no
two adjacent hyphens, no leading hyphen, at most 50 characters. (A trailing
hyphen IS possible, via truncation — the source of non-idempotence.) -/
theorem subjNorm_invariants (s : Str) :
    (∀ c ∈ normalizeSubjectForSessionId s, isIdBodyChar c = true) ∧
    (normalizeSubjectForSessionId s).Chain' (NoRun (fun c => c == '-')) ∧
    (normalizeSubjectForSessionId s).head? ≠ some '-' ∧
    (normalizeSubjectForSessionId s).length ≤ 50 := by
  by_cases hs : s = []
  · subst hs
    have h0 : normalizeSubjectForSessionId [] = [] := rfl
    rw [h0]
    exact ⟨fun c hc => absurd hc (by simp), by simp, by simp, by simp⟩
  · have hX : normalizeSubjectForSessionId s =
        (stripEdgeHyphens (collapseRuns (fun c => c == '-') ['-']
          (collapseRuns isJsSpace ['-']
            ((normalizeSubjectKeyPart s).map
              (fun c => if isSubjKeepChar c then c else '-'))))).take 50 := by
      rw [normalizeSubjectForSessionId, if_neg hs]
    have hchars2 : ∀ c ∈ collapseRuns isJsSpace ['-']
        ((normalizeSubjectKeyPart s).map
          (fun c => if isSubjKeepChar c then c else '-')),
        isIdBodyChar c = true := by
      intro c hc
      rcases mem_collapseRunsAux _ _ _ hc with hrep | ⟨hm1, hws⟩
      · have : c = '-' := by simpa using hrep
        subst this; decide
      · rcases List.mem_map.mp hm1 with ⟨c', _, rfl⟩
        by_cases hk : isSubjKeepChar c' = true
        · rw [if_pos hk] at hws ⊢
          exact keep_not_ws_idBody hk hws
        · rw [if_neg hk] at hws ⊢
          decide
    have hchars3 : ∀ c ∈ collapseRuns (fun c => c == '-') ['-']
        (collapseRuns isJsSpace ['-']
          ((normalizeSubjectKeyPart s).map
            (fun c => if isSubjKeepChar c then c else '-'))),
        isIdBodyChar c = true := by
      intro c hc
      rcases mem_collapseRunsAux _ _ _ hc with hrep | ⟨hm2, -⟩
      · have : c = '-' := by simpa using hrep
        subst this; decide
      · exact hchars2 c hm2
    have hchain3 := (collapseRunsAux_chain (p := fun c => c == '-') (r := '-')
        (collapseRuns isJsSpace ['-']
          ((normalizeSubjectKeyPart s).map
            (fun c => if isSubjKeepChar c then c else '-')))).1 false
    refine ⟨?_, ?_, ?_, ?_⟩
    · intro c hc
      rw [hX] at hc
      exact hchars3 c (stripEdgeHyphens_subset (List.take_subset 50 _ hc))
    · rw [hX]
      exact (stripEdgeHyphens_chain hchain3).take 50
    · rw [hX]
      exact head_take_ne (stripEdgeHyphens_head hchain3)
    · rw [hX]
      exact List.length_take_le 50 _

/-- Applying the full subject-for-id normalization to one of its own outputs
is the identity as long as that output does not end with a hyphen. -/
theorem subjNorm_eq_self {y : Str}
    (hchars : ∀ c ∈ y, isIdBodyChar c = true)
    (hchain : y.Chain' (NoRun (fun c => c == '-')))
    (hhead : y.head? ≠ some '-')
    (hlast : y.getLast? ≠ some '-')
    (hlen : y.length ≤ 50) :
    normalizeSubjectForSessionId y = y := by
  by_cases hy : y = []
  · subst hy; rfl
  · rw [normalizeSubjectForSessionId, if_neg hy]
    have hkey : normalizeSubjectKeyPart y = y := by
      unfold normalizeSubjectKeyPart
      rw [jsTrim_eq_self (fun c hc => idBody_not_ws (hchars c hc)),
        stripReFwd_eq_self hchars]
      unfold collapseRuns
      rw [collapseRunsAux_eq_self_noP _
        (fun c hc => idBody_not_ws (hchars c hc)) false]
      exact map_id_on (fun c hc => jsToLower_of_idBody (hchars c hc))
    have hmap : y.map (fun c => if isSubjKeepChar c then c else '-') = y :=
      map_id_on (fun c hc => by rw [if_pos (idBody_keep (hchars c hc))])
    have hcws : collapseRuns isJsSpace ['-'] y = y :=
      collapseRunsAux_eq_self_noP _ (fun c hc => idBody_not_ws (hchars c hc)) false
    have hchy : collapseRuns (fun c => c == '-') ['-'] y = y :=
      (collapseRunsAux_eq_self_isolated y
        (fun c _ hpc => by simpa using hpc) hchain).1
    have hstrip : stripEdgeHyphens y = y := by
      simp only [stripEdgeHyphens]
      rw [if_neg hhead, if_neg hlast]
    simp only [hkey, hmap, hcws, hchy, hstrip]
    exact List.take_of_length_le hlen

/-- C3 amended: email normalization (lowercasing) is idempotent for every
string; phone normalization is idempotent whenever its output does not again
begin with a (case-insensitive) `whatsapp:` prefix — a repeated prefix defeats
it, since each application strips only one; and subject normalization is
idempotent whenever its output does not end in a hyphen — 50-character
truncation can expose a trailing hyphen that a second pass would strip.
All three normalizations are pure total functions by construction. -/
theorem c3_idempotence_amended :
    (∀ s, jsLowerStr (jsLowerStr s) = jsLowerStr s) ∧
    (∀ s, startsWithCI (strL (r"whatsapp:")) (normalizePhoneNumber s) = false →
        normalizePhoneNumber (normalizePhoneNumber s) = normalizePhoneNumber s) ∧
    (∀ s, (normalizeSubjectForSessionId s).getLast? ≠ some '-' →
        normalizeSubjectForSessionId (normalizeSubjectForSessionId s) =
          normalizeSubjectForSessionId s) := by
  refine ⟨jsLowerStr_idem, ?_, ?_⟩
  · intro s hpre
    have hy : stripPrefCI (strL (r"whatsapp:")) (normalizePhoneNumber s) =
        normalizePhoneNumber s := by
      unfold stripPrefCI
      rw [if_neg (by simp [hpre])]
    show ((stripPrefCI (strL (r"whatsapp:")) (normalizePhoneNumber s)).filter
        (fun c => !isPhoneStripChar c)).map jsToLower = normalizePhoneNumber s
    rw [hy]
    have hf : (normalizePhoneNumber s).filter (fun c => !isPhoneStripChar c) =
        normalizePhoneNumber s := by
      refine List.filter_eq_self.mpr ?_
      intro c hc
      unfold normalizePhoneNumber at hc
      rcases List.mem_map.mp hc with ⟨c', hc', rfl⟩
      have h2 := (List.mem_filter.mp hc').2
      simpa [isPhoneStripChar_jsToLower] using h2
    rw [hf]
    exact jsLowerStr_idem
      ((stripPrefCI (strL (r"whatsapp:")) s).filter (fun c => !isPhoneStripChar c))
  · intro s hlast
    obtain ⟨hchars, hchain, hhead, hlen⟩ := subjNorm_invariants s
    exact subjNorm_eq_self hchars hchain hhead hlast hlen

/-- Closed instance of `c3_idempotence_amended` on inputs satisfying its side
conditions. -/
theorem c3_idempotence_amended_witness :
    jsLowerStr (jsLowerStr (strL (r"AbC"))) = jsLowerStr (strL (r"AbC")) ∧
    normalizePhoneNumber (normalizePhoneNumber (strL (r"+1 (23)"))) =
      normalizePhoneNumber (strL (r"+1 (23)")) ∧
    normalizeSubjectForSessionId
        (normalizeSubjectForSessionId (strL (r"Re: Hello World!"))) =
      normalizeSubjectForSessionId (strL (r"Re: Hello World!")) :=
  ⟨c3_idempotence_amended.1 _,
   c3_idempotence_amended.2.1 _ (by decide),
   c3_idempotence_amended.2.2 _ (by decide)⟩

theorem append_right_ne_nil {a c : Str} (hc : c ≠ []) : a ++ c ≠ [] := by
  intro h
  exact hc (List.append_eq_nil.mp h).2

theorem generateSmsWhatsAppSessionId_ne_nil (phone : Str) (v : Nat) :
    generateSmsWhatsAppSessionId phone v ≠ [] :=
  append_right_ne_nil (natToString_ne_nil v)

theorem mkEmailSessionId_ne_nil (identifier : ThreadIdentifier) (v : Nat) :
    mkEmailSessionId identifier v ≠ [] := by
  intro h
  simp only [mkEmailSessionId] at h
  split at h <;> exact append_right_ne_nil (natToString_ne_nil v) h

theorem emailFallbackId_ne_nil (identifier : ThreadIdentifier) :
    emailFallbackId identifier ≠ [] := by
  intro h
  simp only [emailFallbackId] at h
  split at h <;> exact append_right_ne_nil (by decide) h


theorem append_left_ne_nil {a c : Str} (ha : a ≠ []) : a ++ c ≠ [] := by
  intro h
  exact ha (List.append_eq_nil.mp h).1

/-- Every id the SMS/WhatsApp `try` block can return is either a stored
record's id or a freshly generated `{normalizedPhone}-v{n}` id. -/
theorem smsBody_id_ok (P : Str → Prop) {gap : Int} {f : FailSpec}
    {ch phone : Str} {msg : Option Str} {now : Int} {st : SmsStore} {s : Str}
    {st' : SmsStore}
    (hstore : ∀ k r, st k = some r → P r.sessionId)
    (hgen : ∀ v, P (generateSmsWhatsAppSessionId phone v))
    (h : smsBody gap f ch phone msg now st = some (s, st')) : P s := by
  unfold smsBody at h
  rcases f with ⟨gf, pf, uf⟩
  cases gf <;> cases pf <;> cases uf <;>
    simp only [dbGetSms, dbPutSms, dbSetSmsInactive, dbTouchSms,
      Option.bind_eq_bind, Option.pure_def, Bool.false_eq_true,
      Bool.true_eq_false, if_false, if_true, Option.some_bind,
      Option.none_bind] at h
  all_goals try simp only [reduceCtorEq] at h
  all_goals rcases hst : st (generateSmsWhatsAppSessionKey ch phone) with _ | r
  all_goals try rw [hst] at h
  all_goals try obtain ⟨sk, sid, chn, pn, sv, ca, la, ia⟩ := r
  all_goals try cases sv
  all_goals try cases la
  all_goals try simp only [Option.map_some, Option.map_none, Option.some_bind,
    Option.none_bind, Option.some.injEq, Prod.mk.injEq, reduceCtorEq,
    mkSmsRecord, false_and] at h
  all_goals try split at h
  all_goals try split at h
  all_goals try split at h
  all_goals try simp only [Option.some_bind, Option.none_bind,
    Option.some.injEq, Prod.mk.injEq, reduceCtorEq, mkSmsRecord,
    false_and] at h
  all_goals obtain ⟨h1, -⟩ := h
  all_goals subst h1
  all_goals first
    | exact hgen _
    | exact hstore _ _ hst

/-- Every id the email `try` block can return is either a stored record's id
or a freshly generated email session id. -/
theorem emailBody_id_ok (P : Str → Prop) {f : FailSpec}
    {identifier : ThreadIdentifier} {now : Int} {st : EmailStore} {key s : Str}
    {st' : EmailStore}
    (hstore : ∀ k r, st k = some r → P r.sessionId)
    (hgen : ∀ v, P (mkEmailSessionId identifier v))
    (h : emailBody f identifier now st key = some (s, st')) : P s := by
  unfold emailBody at h
  rcases f with ⟨gf, pf, uf⟩
  cases gf <;> cases pf <;> cases uf <;>
    simp only [dbGetEmail, dbPutEmail, dbTouchEmail, Option.bind_eq_bind,
      Option.pure_def, Bool.false_eq_true, Bool.true_eq_false, if_false,
      if_true, Option.some_bind, Option.none_bind] at h
  all_goals try simp only [reduceCtorEq] at h
  all_goals rcases hst : st key with _ | r
  all_goals try rw [hst] at h
  all_goals try simp only [Option.map_some, Option.map_none, Option.some_bind,
    Option.none_bind, Option.some.injEq, Prod.mk.injEq, reduceCtorEq,
    mkEmailRecord, false_and] at h
  all_goals try split at h
  all_goals try simp only [Option.some_bind, Option.none_bind,
    Option.some.injEq, Prod.mk.injEq, reduceCtorEq, false_and] at h
  all_goals obtain ⟨h1, -⟩ := h
  all_goals subst h1
  all_goals first
    | exact hgen _
    | exact hstore _ _ hst

/-- C7: when a store operation fails during resolution, the entry points still
return the deterministic non-persisted fallback id and never propagate the
store error: (i) the SMS/WhatsApp resolver never returns a store error for a
valid phone; (ii) a failing get, (iii) a failing put on the create path, and
(iv) a failing activity update on the touch path each yield exactly
`{normalizedPhone}-v1`; (v) that fallback is non-empty; (vi)/(vii) the email
resolver behaves likewise with its channel-appropriate fallback, which (viii)
is non-empty. -/
theorem c7_fallback :
    (∀ gap f ch phone msg now st, jsTrim phone ≠ [] →
        ∃ s st', getOrCreateSmsWhatsAppSession gap f ch phone msg now st =
          .ok (s, st')) ∧
    (∀ gap f ch phone msg now st, jsTrim phone ≠ [] → f.getFails = true →
        getOrCreateSmsWhatsAppSession gap f ch phone msg now st =
          .ok (normalizePhoneNumber phone ++ strL (r"-v1"), st)) ∧
    (∀ gap f ch phone msg now st, jsTrim phone ≠ [] → f.getFails = false →
        f.putFails = true →
        st (generateSmsWhatsAppSessionKey ch phone) = none →
        getOrCreateSmsWhatsAppSession gap f ch phone msg now st =
          .ok (normalizePhoneNumber phone ++ strL (r"-v1"), st)) ∧
    (∀ gap f ch phone msg now st r v t, jsTrim phone ≠ [] →
        f.getFails = false → f.updateFails = true →
        st (generateSmsWhatsAppSessionKey ch phone) = some r →
        r.sessionVersion = some v → r.lastActivity = some t →
        r.isActive ≠ some false → wantsNewSession msg = false → now - t ≤ gap →
        getOrCreateSmsWhatsAppSession gap f ch phone msg now st =
          .ok (normalizePhoneNumber phone ++ strL (r"-v1"), st)) ∧
    (∀ phone, normalizePhoneNumber phone ++ strL (r"-v1") ≠ []) ∧
    (∀ uuid f identifier now st, f.getFails = true →
        getOrCreateEmailSession uuid f identifier now st =
          (emailFallbackId identifier, st)) ∧
    (∀ uuid f identifier now st, f.getFails = false → f.putFails = true →
        st (generateEmailSessionKey uuid identifier) = none →
        getOrCreateEmailSession uuid f identifier now st =
          (emailFallbackId identifier, st)) ∧
    (∀ identifier, emailFallbackId identifier ≠ []) := by
  refine ⟨?_, ?_, ?_, ?_, ?_, ?_, ?_, ?_⟩
  · intro gap f ch phone msg now st hphone
    simp only [getOrCreateSmsWhatsAppSession, hphone, if_false]
    rcases hb : smsBody gap f ch phone msg now st with _ | ⟨s0, st0⟩ <;>
      simp only [hb]
    · exact ⟨_, _, rfl⟩
    · exact ⟨s0, st0, rfl⟩
  · intro gap f ch phone msg now st hphone hg
    simp [getOrCreateSmsWhatsAppSession, smsBody, dbGetSms, hg, hphone]
  · intro gap f ch phone msg now st hphone hg hp hst
    simp [getOrCreateSmsWhatsAppSession, smsBody, dbGetSms, dbPutSms, hg, hp,
      hst, hphone]
  · intro gap f ch phone msg now st r v t hphone hg hu hst hv ht hact hmsg hgap
    obtain ⟨sk, sid, chn, pn, sv, ca, la, ia⟩ := r
    simp only at hv ht hact
    subst hv; subst ht
    simp only [getOrCreateSmsWhatsAppSession, smsBody, dbGetSms, dbTouchSms,
      hg, hu, Bool.false_eq_true, if_false, if_true, hst, Option.bind_eq_bind,
      Option.some_bind, Option.none_bind, hmsg, hphone, hact, hgap, ne_eq,
      ite_not, not_false_eq_true]
  · intro phone
    exact append_right_ne_nil (by decide)
  · intro uuid f identifier now st hg
    simp [getOrCreateEmailSession, emailBody, dbGetEmail, hg]
  · intro uuid f identifier now st hg hp hst
    simp [getOrCreateEmailSession, emailBody, dbGetEmail, dbPutEmail, hg, hp, hst]
  · exact emailFallbackId_ne_nil

/-- Closed instance of `c7_fallback`: with a failing get, the SMS resolver on
`+49 171 123` returns `49171123-v1` and the email resolver on the C6
identifier returns its fallback id. -/
theorem c7_fallback_witness :
    getOrCreateSmsWhatsAppSession SESSION_GAP_SMS_WA ⟨true, false, false⟩
      (strL (r"sms")) (strL (r"+49 171 123")) none 100 (fun _ => none) =
      .ok (strL (r"49171123-v1"), fun _ => none) ∧
    getOrCreateEmailSession (strL (r"u")) ⟨true, false, false⟩ c6First 0
      (fun _ => none) = (strL (r"jane-x-com-invoice-42-v1"), fun _ => none) := by
  constructor
  · exact c7_fallback.2.1 SESSION_GAP_SMS_WA ⟨true, false, false⟩ (strL (r"sms"))
      (strL (r"+49 171 123")) none 100 (fun _ => none) (by decide) rfl
  · have he : emailFallbackId c6First = strL (r"jane-x-com-invoice-42-v1") := by
      decide
    rw [← he]
    exact c7_fallback.2.2.2.2.2.1 (strL (r"u")) ⟨true, false, false⟩ c6First 0
      (fun _ => none) rfl

/-- C8 amended: for inputs that pass the required-identifier validation (a
phone number that is non-empty after trimming), the SMS/WhatsApp entry point
never throws and returns a non-empty sessionId whenever all stored ids are
non-empty; the email entry point always returns a non-empty sessionId under
the same store condition; and the stateless email extraction never throws and
returns a non-empty id. An empty or whitespace-only phone number, however, is
surfaced as a hard error (see the counterexample), as §7 of the specification
itself requires. -/
theorem c8_total_amended :
    (∀ gap f ch phone msg now st,
        jsTrim phone ≠ [] →
        (∀ k rec1, st k = some rec1 → rec1.sessionId ≠ []) →
        ∃ s st', getOrCreateSmsWhatsAppSession gap f ch phone msg now st =
          .ok (s, st') ∧ s ≠ []) ∧
    (∀ uuid f identifier now st,
        (∀ k rec1, st k = some rec1 → rec1.sessionId ≠ []) →
        (getOrCreateEmailSession uuid f identifier now st).fst ≠ []) ∧
    (∀ uuid now data, ∃ s, extractSessionId uuid now .email data = .ok s ∧
        s ≠ []) := by
  refine ⟨?_, ?_, ?_⟩
  · intro gap f ch phone msg now st hphone hinv
    simp only [getOrCreateSmsWhatsAppSession, hphone, if_false]
    rcases hb : smsBody gap f ch phone msg now st with _ | ⟨s0, st0⟩ <;>
      simp only [hb]
    · exact ⟨_, _, rfl, append_right_ne_nil (by decide)⟩
    · exact ⟨s0, st0, rfl,
        smsBody_id_ok (fun x => x ≠ []) (fun k rec1 hk => hinv k rec1 hk)
          (generateSmsWhatsAppSessionId_ne_nil phone) hb⟩
  · intro uuid f identifier now st hinv
    unfold getOrCreateEmailSession
    rcases hb : emailBody f identifier now st
        (generateEmailSessionKey uuid identifier) with _ | ⟨s0, st0⟩ <;>
      simp only [hb]
    · exact emailFallbackId_ne_nil identifier
    · exact emailBody_id_ok (fun x => x ≠ []) (fun k rec1 hk => hinv k rec1 hk)
        (mkEmailSessionId_ne_nil identifier) hb
  · intro uuid now data
    refine ⟨generateEmailSessionId uuid data.threadId data.senderEmail, rfl, ?_⟩
    simp only [generateEmailSessionId]
    repeat' split
    all_goals first
      | exact append_left_ne_nil (by decide)
      | exact append_left_ne_nil
          (append_left_ne_nil (append_left_ne_nil (by decide)))

/-- Closed instance of `c8_total_amended`: both stateful resolvers and the
stateless email extraction return non-empty ids on concrete valid inputs over
the empty store. -/
theorem c8_total_amended_witness :
    (∃ s st', getOrCreateSmsWhatsAppSession SESSION_GAP_SMS_WA noFail
        (strL (r"sms")) (strL (r"+1 5")) none 0 (fun _ => none) =
        .ok (s, st') ∧ s ≠ []) ∧
    (getOrCreateEmailSession (strL (r"u")) noFail c6First 0
        (fun _ => none)).fst ≠ [] ∧
    (∃ s, extractSessionId (strL (r"u")) 0 .email
        ⟨none, none, none, some (strL (r"a@b.c"))⟩ = .ok s ∧ s ≠ []) := by
  refine ⟨?_, ?_, ?_⟩
  · exact c8_total_amended.1 SESSION_GAP_SMS_WA noFail (strL (r"sms"))
      (strL (r"+1 5")) none 0 (fun _ => none) (by decide)
      (fun k rec1 h => Option.noConfusion h)
  · exact c8_total_amended.2.1 (strL (r"u")) noFail c6First 0 (fun _ => none)
      (fun k rec1 h => Option.noConfusion h)
  · exact c8_total_amended.2.2 (strL (r"u")) 0
      ⟨none, none, none, some (strL (r"a@b.c"))⟩

-- ===========================================================================
-- Grammar machinery
-- ===========================================================================

theorem matchesGrammar_of {s : Str} (h1 : s ≠ [])
    (h2 : ∀ c ∈ s, isAllowedIdChar c = true) : matchesGrammar s = true := by
  simp only [matchesGrammar, Bool.and_eq_true, List.all_eq_true,
    Bool.not_eq_true', List.isEmpty_eq_false]
  exact ⟨h1, h2⟩

theorem idBody_allowed {c : Char} (h : isIdBodyChar c = true) :
    isAllowedIdChar c = true := by
  simp only [isIdBodyChar, Bool.or_eq_true, decide_eq_true_eq, beq_iff_eq] at h
  simp only [isAllowedIdChar, Bool.or_eq_true, decide_eq_true_eq, beq_iff_eq]
  omega

theorem jsToLower_allowed {c : Char} (h : isAllowedIdChar c = true) :
    isAllowedIdChar (jsToLower c) = true := by
  by_cases hu : 65 ≤ c.toNat ∧ c.toNat ≤ 90
  · have h32 := toNat_jsToLower_of_upper hu
    simp only [isAllowedIdChar, Bool.or_eq_true, decide_eq_true_eq, beq_iff_eq,
      h32]
    omega
  · rwa [jsToLower_of_not_upper hu]

theorem natToString_allowed (n : Nat) :
    ∀ c ∈ natToString n, isAllowedIdChar c = true := by
  intro c hc
  have := mem_natToString_digit hc
  simp only [isAllowedIdChar, Bool.or_eq_true, decide_eq_true_eq, beq_iff_eq]
  omega

theorem stripPrefCI_subset (pat l : Str) : stripPrefCI pat l ⊆ l := by
  unfold stripPrefCI
  split
  · exact List.drop_subset _ l
  · exact fun _ h => h

theorem stripPrefCS_subset (pat l : Str) : stripPrefCS pat l ⊆ l := by
  unfold stripPrefCS
  split
  · exact List.drop_subset _ l
  · exact fun _ h => h

theorem allowed_v1 : ∀ c ∈ (strL (r"-v1") : Str), isAllowedIdChar c = true := by
  decide

theorem allowed_v : ∀ c ∈ (strL (r"-v") : Str), isAllowedIdChar c = true := by
  decide

theorem allowed_hyphen : ∀ c ∈ (['-'] : Str), isAllowedIdChar c = true := by
  decide

/-- Characters a phone number may contain without breaking the grammar:
grammar characters plus the stripped set. -/
def PhoneCharsOK (p : Str) : Prop :=
  ∀ c ∈ p, isAllowedIdChar c = true ∨ isPhoneStripChar c = true

theorem filter_strip_allowed {p : Str} (h : PhoneCharsOK p) :
    ∀ c ∈ p.filter (fun c => !isPhoneStripChar c), isAllowedIdChar c = true := by
  intro c hc
  have hmem := List.mem_filter.mp hc
  have hns : isPhoneStripChar c = false := by simpa using hmem.2
  rcases h c hmem.1 with ha | ha
  · exact ha
  · rw [ha] at hns; exact absurd hns (by simp)

theorem normalizePhoneNumber_allowed {p : Str} (h : PhoneCharsOK p) :
    ∀ c ∈ normalizePhoneNumber p, isAllowedIdChar c = true := by
  intro c hc
  unfold normalizePhoneNumber at hc
  rcases List.mem_map.mp hc with ⟨c', hc', rfl⟩
  refine jsToLower_allowed ?_
  have hsub : ∀ x ∈ (stripPrefCI (strL (r"whatsapp:")) p).filter
      (fun c => !isPhoneStripChar c), isAllowedIdChar x = true := by
    refine filter_strip_allowed ?_
    intro x hx
    exact h x (stripPrefCI_subset _ _ hx)
  exact hsub c' hc'

theorem generateSmsWhatsAppSessionId_grammar {p : Str} (h : PhoneCharsOK p)
    (v : Nat) : matchesGrammar (generateSmsWhatsAppSessionId p v) = true := by
  refine matchesGrammar_of (generateSmsWhatsAppSessionId_ne_nil p v) ?_
  intro c hc
  unfold generateSmsWhatsAppSessionId at hc
  simp only [List.append_assoc, List.mem_append] at hc
  rcases hc with hc | hc | hc
  · exact normalizePhoneNumber_allowed h c hc
  · exact allowed_v c hc
  · exact natToString_allowed _ c hc

theorem smsFallback_grammar {p : Str} (h : PhoneCharsOK p) :
    matchesGrammar (normalizePhoneNumber p ++ strL (r"-v1")) = true := by
  refine matchesGrammar_of (append_right_ne_nil (by decide)) ?_
  intro c hc
  rcases List.mem_append.mp hc with hc1 | hc1
  · exact normalizePhoneNumber_allowed h c hc1
  · exact allowed_v1 c hc1

/-- Characters a sender email may contain without breaking the grammar:
grammar characters plus `@` (which, like `.`, is rewritten to `-`). -/
def SenderCharsOK (o : Option Str) : Prop :=
  ∀ e, o = some e → ∀ c ∈ e, isAllowedIdChar c = true ∨ c = '@'

theorem emailFromForId_allowed {e : Str}
    (h : ∀ c ∈ e, isAllowedIdChar c = true ∨ c = '@') :
    ∀ c ∈ emailFromForId e, isAllowedIdChar c = true := by
  intro c hc
  unfold emailFromForId jsLowerStr at hc
  rcases List.mem_map.mp hc with ⟨c1, hc1, rfl⟩
  rcases List.mem_map.mp hc1 with ⟨c0, hc0, rfl⟩
  by_cases hrep : (jsToLower c0 == '@' || jsToLower c0 == '.') = true
  · rw [if_pos hrep]; decide
  · rw [if_neg hrep]
    rcases h c0 hc0 with ha | ha
    · exact jsToLower_allowed ha
    · subst ha
      exact absurd (by decide) hrep

theorem subjForId_allowed (s : Str) :
    ∀ c ∈ normalizeSubjectForSessionId s, isAllowedIdChar c = true :=
  fun c hc => idBody_allowed ((subjNorm_invariants s).1 c hc)

theorem mkEmailSessionId_grammar {identifier : ThreadIdentifier} (v : Nat)
    (hs : SenderCharsOK identifier.senderEmail) :
    matchesGrammar (mkEmailSessionId identifier v) = true := by
  refine matchesGrammar_of (mkEmailSessionId_ne_nil _ _) ?_
  intro c hc
  have hfrom : ∀ x ∈ emailFromForId (identifier.senderEmail.getD []),
      isAllowedIdChar x = true := by
    rcases he : identifier.senderEmail with _ | e
    · intro x hx; simp [emailFromForId, jsLowerStr] at hx
    · exact emailFromForId_allowed (hs e he)
  simp only [mkEmailSessionId] at hc
  split at hc <;> simp only [List.append_assoc, List.mem_append] at hc
  · rcases hc with hc1 | hc1 | hc1 | hc1 | hc1
    · exact hfrom c hc1
    · exact allowed_hyphen c hc1
    · exact subjForId_allowed _ c hc1
    · exact allowed_v c hc1
    · exact natToString_allowed _ c hc1
  · rcases hc with hc1 | hc1 | hc1
    · exact hfrom c hc1
    · exact allowed_v c hc1
    · exact natToString_allowed _ c hc1

theorem emailFallbackId_grammar {identifier : ThreadIdentifier}
    (hs : SenderCharsOK identifier.senderEmail) :
    matchesGrammar (emailFallbackId identifier) = true := by
  refine matchesGrammar_of (emailFallbackId_ne_nil _) ?_
  have hunknown : ∀ x ∈ emailFromForId (strL (r"unknown")),
      isAllowedIdChar x = true := by decide
  have hfrom : ∀ x ∈ emailFromForId (match identifier.senderEmail with
      | some e => if e = [] then strL (r"unknown") else e
      | none => strL (r"unknown")), isAllowedIdChar x = true := by
    rcases he : identifier.senderEmail with _ | e
    · exact hunknown
    · show ∀ x ∈ emailFromForId (if e = [] then strL (r"unknown") else e),
        isAllowedIdChar x = true
      by_cases hee : e = []
      · rw [if_pos hee]
        exact hunknown
      · rw [if_neg hee]
        exact emailFromForId_allowed (hs e he)
  intro c hc
  simp only [emailFallbackId] at hc
  split at hc <;> simp only [List.append_assoc, List.mem_append] at hc
  · rcases hc with hc1 | hc1 | hc1 | hc1
    · exact hfrom c hc1
    · exact allowed_hyphen c hc1
    · exact subjForId_allowed _ c hc1
    · exact allowed_v1 c hc1
  · rcases hc with hc1 | hc1
    · exact hfrom c hc1
    · exact allowed_v1 c hc1

theorem allowed_sms_pre : ∀ c ∈ (strL (r"sms-") : Str),
    isAllowedIdChar c = true := by decide

theorem allowed_wa_pre : ∀ c ∈ (strL (r"whatsapp-") : Str),
    isAllowedIdChar c = true := by decide

/-- C1 amended: every produced sessionId matches `^[0-9a-zA-Z._:-]+$` provided
the raw identifiers stay within the characters the normalizers handle — phone
numbers made of grammar characters plus the stripped set (whitespace, `(`,
`)`, `+`, `-`), waIds of grammar characters, sender emails of grammar
characters plus `@` — and, for the stateful strategies, stored records whose
sessionIds already match the grammar. Subjects are unrestricted. An email
sender outside this set (e.g. `jane+foo@x.com`) leaks `+` into the id (see
the counterexample). -/
theorem c1_grammar_amended :
    (∀ now phone, PhoneCharsOK phone →
        matchesGrammar (generateSmsSessionId now phone) = true) ∧
    (∀ now phone waId, PhoneCharsOK phone →
        (∀ w, waId = some w → ∀ c ∈ w, isAllowedIdChar c = true) →
        matchesGrammar (generateWhatsAppSessionId now phone waId) = true) ∧
    (∀ gap f ch phone msg now st s st', PhoneCharsOK phone →
        (∀ k r1, st k = some r1 → matchesGrammar r1.sessionId = true) →
        getOrCreateSmsWhatsAppSession gap f ch phone msg now st = .ok (s, st') →
        matchesGrammar s = true) ∧
    (∀ uuid f identifier now st, SenderCharsOK identifier.senderEmail →
        (∀ k r1, st k = some r1 → matchesGrammar r1.sessionId = true) →
        matchesGrammar (getOrCreateEmailSession uuid f identifier now st).fst =
          true) := by
  refine ⟨?_, ?_, ?_, ?_⟩
  · intro now phone h
    refine matchesGrammar_of (append_left_ne_nil (append_left_ne_nil
      (append_left_ne_nil (by decide)))) ?_
    intro c hc
    unfold generateSmsSessionId at hc
    simp only [List.append_assoc, List.mem_append] at hc
    rcases hc with hc1 | hc1 | hc1 | hc1
    · exact allowed_sms_pre c hc1
    · exact filter_strip_allowed h c hc1
    · exact allowed_hyphen c hc1
    · exact natToString_allowed _ c hc1
  · intro now phone waId hph hwa
    have hbranch : matchesGrammar (whatsappPhoneBranch now phone) = true := by
      refine matchesGrammar_of (append_left_ne_nil (append_left_ne_nil
        (append_left_ne_nil (by decide)))) ?_
      intro c hc
      unfold whatsappPhoneBranch at hc
      simp only [List.append_assoc, List.mem_append] at hc
      rcases hc with hc1 | hc1 | hc1 | hc1
      · exact allowed_wa_pre c hc1
      · refine filter_strip_allowed ?_ c hc1
        intro x hx
        exact hph x (stripPrefCS_subset _ _ hx)
      · exact allowed_hyphen c hc1
      · exact natToString_allowed _ c hc1
    rcases hw : waId with _ | w
    · exact hbranch
    · show matchesGrammar (if w = [] then whatsappPhoneBranch now phone
        else strL (r"whatsapp-") ++ w ++ ['-'] ++
          natToString (bucketStart now)) = true
      by_cases hwe : w = []
      · rw [if_pos hwe]
        exact hbranch
      · rw [if_neg hwe]
        refine matchesGrammar_of (append_left_ne_nil (append_left_ne_nil
          (append_left_ne_nil (by decide)))) ?_
        intro c hc
        simp only [List.append_assoc, List.mem_append] at hc
        rcases hc with hc1 | hc1 | hc1 | hc1
        · exact allowed_wa_pre c hc1
        · exact hwa w hw c hc1
        · exact allowed_hyphen c hc1
        · exact natToString_allowed _ c hc1
  · intro gap f ch phone msg now st s st' hok hinv heq
    by_cases hph : jsTrim phone = []
    · rw [getOrCreateSmsWhatsAppSession, if_pos hph] at heq
      exact absurd heq (by simp)
    · rw [getOrCreateSmsWhatsAppSession, if_neg hph] at heq
      rcases hb : smsBody gap f ch phone msg now st with _ | ⟨s0, st0⟩ <;>
        rw [hb] at heq <;>
        simp only [Except.ok.injEq, Prod.mk.injEq] at heq <;>
        obtain ⟨h1, -⟩ := heq
      · rw [← h1]
        exact smsFallback_grammar hok
      · subst h1
        exact smsBody_id_ok (fun x => matchesGrammar x = true) hinv
          (generateSmsWhatsAppSessionId_grammar hok) hb
  · intro uuid f identifier now st hs hinv
    unfold getOrCreateEmailSession
    rcases hb : emailBody f identifier now st
        (generateEmailSessionKey uuid identifier) with _ | ⟨s0, st0⟩ <;>
      simp only [hb]
    · exact emailFallbackId_grammar hs
    · exact emailBody_id_ok (fun x => matchesGrammar x = true) hinv
        (fun v => mkEmailSessionId_grammar v hs) hb

/-- Closed instance of `c1_grammar_amended` on concrete in-range identifiers:
the produced ids all match the grammar. -/
theorem c1_grammar_amended_witness :
    matchesGrammar (generateSmsSessionId 0 (strL (r"+1 (23)"))) = true ∧
    matchesGrammar (generateWhatsAppSessionId 0 (strL (r"+1 (23)"))
      (some (strL (r"49172")))) = true ∧
    matchesGrammar ((getOrCreateEmailSession (strL (r"u")) noFail c6First 0
      (fun _ => none)).fst) = true := by
  refine ⟨?_, ?_, ?_⟩
  · exact c1_grammar_amended.1 0 (strL (r"+1 (23)"))
      (by unfold PhoneCharsOK; decide)
  · refine c1_grammar_amended.2.1 0 (strL (r"+1 (23)"))
      (some (strL (r"49172"))) (by unfold PhoneCharsOK; decide) ?_
    intro w hw
    rw [Option.some.injEq] at hw
    subst hw
    decide
  · refine c1_grammar_amended.2.2.2 (strL (r"u")) noFail c6First 0
      (fun _ => none) ?_ (fun k r1 h => Option.noConfusion h)
    intro e he
    have he1 : some (strL (r"jane@x.com")) = some e := he
    injection he1 with he2
    subst he2
    decide

-- ===========================================================================
-- Claim theorems
-- ===========================================================================

/-- C1, counterexample: for sender `jane+foo@x.com` the email resolution
returns `jane+foo-x-com-hi-v1`, which contains `+` and therefore does not
match `^[0-9a-zA-Z._:-]+$`; the claim's universal grammar guarantee is false. -/
theorem c1_counterexample :
    matchesGrammar ((getOrCreateEmailSession (strL (r"u")) noFail c1BadIdentifier 0
        (fun _ => none)).fst) = false ∧
    '+' ∈ (getOrCreateEmailSession (strL (r"u")) noFail c1BadIdentifier 0
        (fun _ => none)).fst := by
  exact ⟨by decide, by decide⟩

/-- C2, counterexample: the stateless email id generator without a `threadId`
embeds a fresh UUID fragment, so two calls with identical channel inputs
(sender `a@b.c`, no thread id) but different randomness return different
session ids — resolution on this path is not a function of (channel,
normalized identifiers, record state, time). -/
theorem c2_counterexample :
    generateEmailSessionId (strL (r"aaaaaaaa-bbbb")) none (some (strL (r"a@b.c"))) ≠
    generateEmailSessionId (strL (r"cccccccc-dddd")) none (some (strL (r"a@b.c"))) := by
  decide

/-- C3, counterexample: phone normalization strips only one `whatsapp:` prefix
per application, so `whatsapp:whatsapp:123` normalizes to `whatsapp:123` and
renormalizes to `123`; and the subject-for-id normalization truncates to 50
characters after stripping edge hyphens, so a subject whose 51st character is
a hyphen normalizes to a hyphen-terminated string that renormalizes shorter.
Both refute `normalize(normalize(x)) = normalize(x)`. -/
theorem c3_counterexample :
    normalizePhoneNumber (normalizePhoneNumber (strL (r"whatsapp:whatsapp:123"))) ≠
      normalizePhoneNumber (strL (r"whatsapp:whatsapp:123")) ∧
    normalizeSubjectForSessionId (normalizeSubjectForSessionId c3LongSubject) ≠
      normalizeSubjectForSessionId c3LongSubject := by
  exact ⟨by decide, by decide⟩

/-- C4, counterexample: on a record that is malformed (missing `lastActivity`)
but carries `sessionVersion = 5`, resolution returns `12345-v1` — it falls
through to the create-first block — not the claimed previous-plus-1 id
`12345-v6`. -/
theorem c4_counterexample :
    (∃ st', getOrCreateSmsWhatsAppSession SESSION_GAP_SMS_WA noFail (strL (r"sms"))
        (strL (r"12345")) none 100 c4Store = .ok (strL (r"12345-v1"), st')) ∧
    strL (r"12345-v1") ≠ strL (r"12345-v6") := by
  exact ⟨⟨_, rfl⟩, by decide⟩

/-- C5: phone `+1 (234) 567-8900` on SMS over the empty store: t=0 yields
`12345678900-v1`; t=+5min yields the same id; t=+25h after that (gap default
24h) yields `12345678900-v2`. -/
theorem c5_concrete_scenario :
    (∃ st1, getOrCreateSmsWhatsAppSession SESSION_GAP_SMS_WA noFail (strL (r"sms"))
        c5Phone none 0 (fun _ => none) = .ok (strL (r"12345678900-v1"), st1)) ∧
    (∃ st2, getOrCreateSmsWhatsAppSession SESSION_GAP_SMS_WA noFail (strL (r"sms"))
        c5Phone none 300000 c5Run1.snd = .ok (strL (r"12345678900-v1"), st2)) ∧
    (∃ st3, getOrCreateSmsWhatsAppSession SESSION_GAP_SMS_WA noFail (strL (r"sms"))
        c5Phone none 90300000 c5Run2.snd = .ok (strL (r"12345678900-v2"), st3)) := by
  exact ⟨⟨_, rfl⟩, ⟨_, rfl⟩, ⟨_, rfl⟩⟩

/-- C6, counterexample: the sessionKey derived for sender `jane@x.com` and
subject `Invoice #42` is `email-subject:invoice #42|from:jane@x.com` — the
key-side subject normalization keeps `#` and the space — not the claimed
`email-subject:invoice-42|from:jane@x.com`. -/
theorem c6_counterexample :
    generateEmailSessionKey (strL (r"u1")) c6First ≠
      strL (r"email-subject:invoice-42|from:jane@x.com") := by
  decide

/-- C6 amended: the derived sessionKey is
`email-subject:invoice #42|from:jane@x.com` (hyphenation of the subject
appears only inside the sessionId); the reply `Re: Invoice #42` from the same
sender derives the same key, and resolution returns the same active sessionId
`jane-x-com-invoice-42-v1` unchanged. -/
theorem c6_amended_scenario :
    generateEmailSessionKey (strL (r"u1")) c6First =
      strL (r"email-subject:invoice #42|from:jane@x.com") ∧
    generateEmailSessionKey (strL (r"u2")) c6Reply =
      strL (r"email-subject:invoice #42|from:jane@x.com") ∧
    c6Run1.fst = strL (r"jane-x-com-invoice-42-v1") ∧
    (getOrCreateEmailSession (strL (r"u2")) noFail c6Reply 5 c6Run1.snd).fst =
      strL (r"jane-x-com-invoice-42-v1") := by
  exact ⟨by decide, by decide, by decide, by decide⟩

/-- C8, counterexample: a whitespace-only phone number makes the SMS/WhatsApp
entry point throw (`Phone number is required for SMS/WhatsApp session`)
instead of returning a usable sessionId, refuting "never throws for every
input". -/
theorem c8_counterexample :
    getOrCreateSmsWhatsAppSession SESSION_GAP_SMS_WA noFail (strL (r"sms"))
      (strL (r"   ")) none 0 (fun _ => none) =
    .error (strL (r"Phone number is required for SMS/WhatsApp session")) := rfl

theorem bucketStart_ne_of_div_ne {t1 t2 : Nat}
    (h : t1 / fiveMinutesInMs ≠ t2 / fiveMinutesInMs) :
    bucketStart t1 ≠ bucketStart t2 := by
  intro he
  exact h (Nat.eq_of_mul_eq_mul_right (by norm_num [fiveMinutesInMs]) he)

theorem append_natToString_ne {A : Str} {m n : Nat} (h : m ≠ n) :
    A ++ natToString m ≠ A ++ natToString n := by
  intro he
  exact h (natToString_injective (List.append_cancel_left he))

/-- A record witnessing an active stored SMS session for phone `77`. -/
def c2WitRecord : SmsWhatsAppSessionRecord :=
  { sessionKey := strL (r"sms-77")
    sessionId := strL (r"77-v3")
    channel := strL (r"sms")
    phoneNumber := strL (r"77")
    sessionVersion := some 3
    createdAt := 0
    lastActivity := some 10
    isActive := some true }

/-- A store holding only `c2WitRecord`. -/
def c2WitStore : SmsStore :=
  fun k => if k = strL (r"sms-77") then some c2WitRecord else none

/-- C2 amended: resolution is deterministic in (channel, identifiers, record
state, time) on every path that draws no fresh randomness. For SMS/WhatsApp,
a call within the gap returns the stored id unchanged and a call after the
gap returns the version-plus-1 id, which differs from the stored one; the
stateless email generator is uuid-independent when a truthy `threadId` is
supplied; and the stateful email path with empty subject and absent sender
still returns the fixed id `-v1` whenever its randomized fallback key is
unused in the store. Without a `threadId` the stateless email generator
embeds a fresh UUID and is not deterministic (see the counterexample). -/
theorem c2_determinism_amended :
    (∀ gap ch phone msg now st r v t,
        jsTrim phone ≠ [] →
        st (generateSmsWhatsAppSessionKey ch phone) = some r →
        r.sessionVersion = some v → r.lastActivity = some t →
        r.isActive ≠ some false → wantsNewSession msg = false →
        now - t ≤ gap →
        ∃ st', getOrCreateSmsWhatsAppSession gap noFail ch phone msg now st =
          .ok (r.sessionId, st')) ∧
    (∀ gap ch phone msg now st r v t,
        jsTrim phone ≠ [] →
        st (generateSmsWhatsAppSessionKey ch phone) = some r →
        r.sessionVersion = some v → r.lastActivity = some t →
        r.isActive ≠ some false → wantsNewSession msg = false →
        ¬(now - t ≤ gap) →
        ∃ st', getOrCreateSmsWhatsAppSession gap noFail ch phone msg now st =
          .ok (generateSmsWhatsAppSessionId phone (v + 1), st')) ∧
    (∀ phone v, generateSmsWhatsAppSessionId phone (v + 1) ≠
        generateSmsWhatsAppSessionId phone v) ∧
    (∀ u1 u2 tid se, tid ≠ [] →
        generateEmailSessionId u1 (some tid) se = generateEmailSessionId u2 (some tid) se) ∧
    (∀ uuid now st, st (strL (r"email-fallback-") ++ uuid) = none →
        (getOrCreateEmailSession uuid noFail ⟨none, [], none, none, none⟩ now st).fst =
          strL (r"-v1")) := by
  refine ⟨?_, ?_, ?_, ?_, ?_⟩
  · intro gap ch phone msg now st r v t hphone hst hv ht hact hmsg hgap
    obtain ⟨sk, sid, chn, pn, sv, ca, la, ia⟩ := r
    simp only at hv ht hact ⊢
    subst hv; subst ht
    simp only [getOrCreateSmsWhatsAppSession, smsBody, dbGetSms, dbTouchSms,
      noFail, Bool.false_eq_true, if_false, hst, Option.bind_eq_bind,
      Option.some_bind, hmsg, hphone, hact, hgap, ne_eq, ite_not, if_false,
      not_false_eq_true, if_true]
    exact ⟨_, rfl⟩
  · intro gap ch phone msg now st r v t hphone hst hv ht hact hmsg hgap
    obtain ⟨sk, sid, chn, pn, sv, ca, la, ia⟩ := r
    simp only at hv ht hact ⊢
    subst hv; subst ht
    simp only [getOrCreateSmsWhatsAppSession, smsBody, dbGetSms, dbSetSmsInactive,
      dbPutSms, noFail, Bool.false_eq_true, if_false, hst, Option.bind_eq_bind,
      Option.some_bind, hmsg, hphone, hact, hgap, ne_eq, ite_not, if_false,
      not_false_eq_true, if_true, mkSmsRecord]
    exact ⟨_, rfl⟩
  · intro phone v
    exact append_natToString_ne (by omega)
  · intro u1 u2 tid se htid
    simp only [generateEmailSessionId, if_neg htid]
  · intro uuid now st hst
    have hk : generateEmailSessionKey uuid ⟨none, [], none, none, none⟩ =
        strL (r"email-fallback-") ++ uuid := rfl
    unfold getOrCreateEmailSession
    rw [hk]
    unfold emailBody
    simp only [dbGetEmail, noFail, Bool.false_eq_true, if_false, hst,
      Option.some_bind, dbPutEmail, mkEmailRecord]
    rfl

/-- Closed instance of `c2_determinism_amended` at the concrete store
`c2WitStore`: within a gap of 1000ms the stored id `77-v3` is returned; after
the gap the id is `77-v4`; and the thread-id generator ignores the uuid. -/
theorem c2_determinism_amended_witness :
    (∃ st', getOrCreateSmsWhatsAppSession 1000 noFail (strL (r"sms")) (strL (r"77"))
        none 500 c2WitStore = .ok (strL (r"77-v3"), st')) ∧
    (∃ st', getOrCreateSmsWhatsAppSession 1000 noFail (strL (r"sms")) (strL (r"77"))
        none 2000 c2WitStore = .ok (strL (r"77-v4"), st')) ∧
    generateEmailSessionId (strL (r"u1")) (some (strL (r"t9"))) none =
      generateEmailSessionId (strL (r"u2")) (some (strL (r"t9"))) none := by
  refine ⟨?_, ?_, ?_⟩
  · obtain ⟨st', h⟩ := c2_determinism_amended.1 1000 (strL (r"sms")) (strL (r"77"))
      none 500 c2WitStore c2WitRecord 3 10 (by decide) rfl rfl rfl (by decide) rfl
      (by decide)
    exact ⟨st', h⟩
  · obtain ⟨st', h⟩ := c2_determinism_amended.2.1 1000 (strL (r"sms")) (strL (r"77"))
      none 2000 c2WitStore c2WitRecord 3 10 (by decide) rfl rfl rfl (by decide) rfl
      (by decide)
    exact ⟨st', h⟩
  · exact c2_determinism_amended.2.2.2.1 (strL (r"u1")) (strL (r"u2"))
      (strL (r"t9")) none (by decide)

/-- C4 amended: when a stored, well-formed record has `isActive = false`,
resolution creates and returns version previous-plus-1 with `isActive = true`
(whatever the message text); but when the record is malformed (missing
`sessionVersion` or `lastActivity`) the code falls through to the create-first
block and the new version is 1, not previous-plus-1. -/
theorem c4_inactive_malformed_amended :
    (∀ gap ch phone msg now st r v t,
        jsTrim phone ≠ [] →
        st (generateSmsWhatsAppSessionKey ch phone) = some r →
        r.sessionVersion = some v → r.lastActivity = some t →
        r.isActive = some false →
        ∃ st', getOrCreateSmsWhatsAppSession gap noFail ch phone msg now st =
            .ok (generateSmsWhatsAppSessionId phone (v + 1), st') ∧
          st' (generateSmsWhatsAppSessionKey ch phone) =
            some (mkSmsRecord ch phone (generateSmsWhatsAppSessionKey ch phone)
              (v + 1) now)) ∧
    (∀ gap ch phone msg now st r,
        jsTrim phone ≠ [] →
        st (generateSmsWhatsAppSessionKey ch phone) = some r →
        (r.sessionVersion = none ∨ r.lastActivity = none) →
        ∃ st', getOrCreateSmsWhatsAppSession gap noFail ch phone msg now st =
            .ok (generateSmsWhatsAppSessionId phone 1, st') ∧
          st' (generateSmsWhatsAppSessionKey ch phone) =
            some (mkSmsRecord ch phone (generateSmsWhatsAppSessionKey ch phone)
              1 now)) := by
  constructor
  · intro gap ch phone msg now st r v t hphone hst hv ht hact
    obtain ⟨sk, sid, chn, pn, sv, ca, la, ia⟩ := r
    simp only at hv ht hact
    subst hv; subst ht; subst hact
    by_cases hmsg : wantsNewSession msg = true
    · simp only [getOrCreateSmsWhatsAppSession, smsBody, dbGetSms, dbSetSmsInactive,
        dbPutSms, noFail, Bool.false_eq_true, if_false, hst, Option.bind_eq_bind,
        Option.some_bind, hmsg, hphone, if_true]
      exact ⟨_, rfl, by simp [smsStorePut]⟩
    · simp only [Bool.not_eq_true] at hmsg
      simp only [getOrCreateSmsWhatsAppSession, smsBody, dbGetSms, dbSetSmsInactive,
        dbPutSms, noFail, Bool.false_eq_true, if_false, hst, Option.bind_eq_bind,
        Option.some_bind, hmsg, hphone, ne_eq, not_true_eq_false, ite_not,
        if_false, if_true]
      exact ⟨_, rfl, by simp [smsStorePut]⟩
  · intro gap ch phone msg now st r hphone hst hbad
    obtain ⟨sk, sid, chn, pn, sv, ca, la, ia⟩ := r
    cases sv with
    | none =>
      cases la <;>
      · simp only [getOrCreateSmsWhatsAppSession, smsBody, dbGetSms, dbPutSms,
          noFail, Bool.false_eq_true, if_false, hst, Option.bind_eq_bind,
          Option.some_bind, hphone]
        exact ⟨_, rfl, by simp [smsStorePut]⟩
    | some ver =>
      cases la with
      | none =>
        simp only [getOrCreateSmsWhatsAppSession, smsBody, dbGetSms, dbPutSms,
          noFail, Bool.false_eq_true, if_false, hst, Option.bind_eq_bind,
          Option.some_bind, hphone]
        exact ⟨_, rfl, by simp [smsStorePut]⟩
      | some lastAct =>
        exfalso
        rcases hbad with h | h <;> simp at h

/-- Closed instance of `c4_inactive_malformed_amended`: on `c2WitStore` with
its record forced inactive, resolution at any time returns `77-v4`; on the
malformed `c4Store` record (version 5, no `lastActivity`) it returns
`12345-v1`. -/
theorem c4_inactive_malformed_amended_witness :
    (∃ st', getOrCreateSmsWhatsAppSession 1000 noFail (strL (r"sms")) (strL (r"77"))
        none 500 (fun k => if k = strL (r"sms-77")
          then some { c2WitRecord with isActive := some false } else none) =
        .ok (strL (r"77-v4"), st')) ∧
    (∃ st', getOrCreateSmsWhatsAppSession SESSION_GAP_SMS_WA noFail (strL (r"sms"))
        (strL (r"12345")) none 100 c4Store = .ok (strL (r"12345-v1"), st')) := by
  constructor
  · obtain ⟨st', h, _⟩ := c4_inactive_malformed_amended.1 1000 (strL (r"sms"))
      (strL (r"77")) none 500
      (fun k => if k = strL (r"sms-77")
          then some { c2WitRecord with isActive := some false } else none)
      { c2WitRecord with isActive := some false } 3 10 (by decide) rfl rfl rfl rfl
    exact ⟨st', h⟩
  · obtain ⟨st', h, _⟩ := c4_inactive_malformed_amended.2 SESSION_GAP_SMS_WA
      (strL (r"sms")) (strL (r"12345")) none 100 c4Store c4Record (by decide) rfl
      (Or.inr rfl)
    exact ⟨st', h⟩

/-- C9: the stateless generator buckets `now` into 5-minute windows via
`floor(now / windowMs) * windowMs` and concatenates channel, identifier and
bucket start; for a fixed identifier, calls in the same bucket agree and calls
in different buckets differ, for both the SMS generator and the WhatsApp
generator (either branch). -/
theorem c9_time_window :
    (∀ now phoneNumber, generateSmsSessionId now phoneNumber =
        strL (r"sms-") ++ phoneNumber.filter (fun c => !isPhoneStripChar c) ++ ['-'] ++
        natToString (now / (5 * 60 * 1000) * (5 * 60 * 1000))) ∧
    (∀ t1 t2 phoneNumber, t1 / fiveMinutesInMs = t2 / fiveMinutesInMs →
        generateSmsSessionId t1 phoneNumber = generateSmsSessionId t2 phoneNumber) ∧
    (∀ t1 t2 phoneNumber, t1 / fiveMinutesInMs ≠ t2 / fiveMinutesInMs →
        generateSmsSessionId t1 phoneNumber ≠ generateSmsSessionId t2 phoneNumber) ∧
    (∀ t1 t2 phoneNumber waId, t1 / fiveMinutesInMs = t2 / fiveMinutesInMs →
        generateWhatsAppSessionId t1 phoneNumber waId =
          generateWhatsAppSessionId t2 phoneNumber waId) ∧
    (∀ t1 t2 phoneNumber waId, t1 / fiveMinutesInMs ≠ t2 / fiveMinutesInMs →
        generateWhatsAppSessionId t1 phoneNumber waId ≠
          generateWhatsAppSessionId t2 phoneNumber waId) := by
  refine ⟨fun now p => rfl, ?_, ?_, ?_, ?_⟩
  · intro t1 t2 p h
    unfold generateSmsSessionId bucketStart
    rw [h]
  · intro t1 t2 p h
    unfold generateSmsSessionId bucketStart
    exact append_natToString_ne (bucketStart_ne_of_div_ne h)
  · intro t1 t2 p waId h
    unfold generateWhatsAppSessionId whatsappPhoneBranch bucketStart
    rw [h]
  · intro t1 t2 p waId h
    have hne := append_natToString_ne (A := strL (r"whatsapp-") ++
      (stripPrefCS (strL (r"whatsapp:")) p).filter (fun c => !isPhoneStripChar c) ++ ['-'])
      (bucketStart_ne_of_div_ne h)
    match waId with
    | none => exact hne
    | some w =>
      by_cases hw : w = []
      · subst hw
        simp only [generateWhatsAppSessionId, if_pos rfl]
        exact hne
      · simp only [generateWhatsAppSessionId, if_neg hw]
        exact append_natToString_ne (bucketStart_ne_of_div_ne h)

/-- Closed instance of `c9_time_window`: times 100 and 200 share the bucket
starting at 0 and yield equal ids; times 0 and 300000 fall in different
buckets and yield different ids on both channels. -/
theorem c9_time_window_witness :
    generateSmsSessionId 100 (strL (r"+12")) = generateSmsSessionId 200 (strL (r"+12")) ∧
    generateSmsSessionId 0 (strL (r"+12")) ≠ generateSmsSessionId 300000 (strL (r"+12")) ∧
    generateWhatsAppSessionId 0 (strL (r"+12")) (some (strL (r"99"))) ≠
      generateWhatsAppSessionId 300000 (strL (r"+12")) (some (strL (r"99"))) :=
  ⟨c9_time_window.2.1 100 200 _ (by decide),
   c9_time_window.2.2.1 0 300000 _ (by decide),
   c9_time_window.2.2.2.2 0 300000 _ _ (by decide)⟩

/-- C10: the deprecated entry points delegate to the authoritative email
strategy: `getOrCreateSessionId` agrees with `getOrCreateEmailSession` on
every identifier, state, time and failure pattern, and `generateThreadKey`
agrees with `generateEmailSessionKey`, so no thread-id/reference-header keying
is reachable through these exports. -/
theorem c10_deprecated_equiv :
    (∀ uuid f identifier now st, getOrCreateSessionId uuid f identifier now st =
        getOrCreateEmailSession uuid f identifier now st) ∧
    (∀ uuid identifier, generateThreadKey uuid identifier =
        generateEmailSessionKey uuid identifier) :=
  ⟨fun _ _ _ _ _ => rfl, fun _ _ => rfl⟩
